import Mathlib

/-!
Verification of the hierarchical schedule engine and its natural-language
command editor (TypeScript sources `src/lib/schedule-engine.ts` and the
schedule editor module).

The embedding is shallow:

* A JavaScript `Date` is its millisecond timestamp, an `Int`.  The engine
  never leaves a single timezone and never crosses a DST boundary in the
  model, so `date-fns` `addDays` is addition of whole multiples of
  86 400 000 ms and `getDay` is derived from the epoch day number
  (1970-01-01 was a Thursday, weekday index 4, with Sunday = 0).
* `date-fns` `differenceInDays` returns the number of complete days between
  two timestamps, truncated towards zero, which is `Int.tdiv` of the
  millisecond difference.
* The `while` loops of the calendar are modelled with an explicit fuel
  argument; a loop body that would run without the counter advancing
  forever (which the JavaScript loop really does on a calendar with no
  reachable working day) exhausts its fuel and the function reports
  failure through `Option`/an explicit error.  Fuel is threaded, never
  hidden, so every theorem states exactly for which executions it holds.
* Floating point confidence arithmetic of the command parser is modelled
  over `ℚ`; every value the source manipulates (multiples of 1/100 and
  products with a fuzzy score) is far from the binary rounding error, and
  all comparisons the claims depend on are robust to it.
-/

/-! ## Dates -/

/- A JavaScript `Date` is identified with its `getTime()` millisecond value,
written as a plain `Int` throughout. -/

def msPerDay : Int := 86400000

/-- `date-fns` `addDays`: shift a timestamp by whole days. -/
def addDays (d : Int) (n : Int) : Int := d + n * msPerDay

/-- `date-fns` `differenceInDays`: complete days between two timestamps,
truncated towards zero (JavaScript semantics). -/
def differenceInDays (endDate startDate : Int) : Int :=
  Int.tdiv (endDate - startDate) msPerDay

/-- `Date.prototype.getDay`: weekday index, Sunday = 0.  Day 0 of the epoch
was a Thursday (index 4). -/
def jsGetDay (d : Int) : Int :=
  (Int.fdiv d msPerDay + 4).emod 7

/-- The day-name table of `Calendar.isWorkingDay` (`schedule-engine.ts:160`). -/
def dayNames : List String := ["Sun", "Mon", "Tue", "Wed", "Thu", "Fri", "Sat"]

def dayName (d : Int) : String := dayNames.getD ((jsGetDay d).toNat) ""

/-- Calendar day of a timestamp (used only to state claims about
calendar-day equality of timestamps; the source has no such function). -/
def calendarDay (d : Int) : Int := Int.fdiv d msPerDay

/-! ## Calendar (`schedule-engine.ts:138-198`) -/

inductive DurationUnit where
  | working_days
  | calendar_days
deriving DecidableEq, Repr

structure Calendar where
  working_days : List String
  holidays : List Int
  duration_unit : DurationUnit
deriving DecidableEq, Repr

/-- The constructor defaults of `Calendar` (`schedule-engine.ts:143-147`). -/
def defaultCalendar : Calendar :=
  { working_days := ["Mon", "Tue", "Wed", "Thu", "Fri"]
    holidays := []
    duration_unit := DurationUnit.working_days }

/-- `Calendar.isWorkingDay` (`schedule-engine.ts:153-163`): false when some
holiday has the very same timestamp (`h.getTime() === dt.getTime()`),
otherwise membership of the weekday name in `working_days`. -/
def Calendar.isWorkingDay (cal : Calendar) (dt : Int) : Bool :=
  if cal.holidays.any (fun h => h == dt) then false
  else cal.working_days.contains (dayName dt)

/-- Loop of `Calendar.addWorkingDays` (`schedule-engine.ts:170-178`):
`while (daysAdded < days) { current = addDays(current, 1); if working then
daysAdded++ }`.  `fuel` bounds the number of iterations; the JavaScript
loop runs forever when no working day is ever reached, which the model
reports as `none`. -/
def awdGo (cal : Calendar) (days : Int) (fuel : Nat) (current : Int)
    (daysAdded : Int) : Option Int :=
  if daysAdded < days then
    match fuel with
    | 0 => none
    | f + 1 =>
      let next := addDays current 1
      awdGo cal days f next (if cal.isWorkingDay next then daysAdded + 1 else daysAdded)
  else some current

/-- `Calendar.addWorkingDays` (`schedule-engine.ts:165-181`). -/
def Calendar.addWorkingDays (cal : Calendar) (startDate : Int) (days : Int)
    (fuel : Nat) : Option Int :=
  if cal.duration_unit = DurationUnit.calendar_days then some (addDays startDate days)
  else awdGo cal days fuel startDate 0

/-- Loop of `Calendar.workingDaysBetween` (`schedule-engine.ts:188-195`):
`while (current < endDate) { if working then count++; current += 1 day }`.
Each iteration advances `current` by a full day, so `(endDate - start).toNat`
iterations always suffice; the fuel is an internal bound, not a source
behaviour (this loop always terminates in JavaScript). -/
def wdbGo (cal : Calendar) (endDate : Int) (fuel : Nat) (current : Int) : Int :=
  if current < endDate then
    match fuel with
    | 0 => 0
    | f + 1 =>
      (if cal.isWorkingDay current then 1 else 0) + wdbGo cal endDate f (addDays current 1)
  else 0

/-- `Calendar.workingDaysBetween` (`schedule-engine.ts:183-197`). -/
def Calendar.workingDaysBetween (cal : Calendar) (startDate endDate : Int) : Int :=
  if cal.duration_unit = DurationUnit.calendar_days then
    differenceInDays endDate startDate
  else wdbGo cal endDate (endDate - startDate).toNat startDate

/-! ### Basic calendar lemmas -/

theorem awdGo_stop (cal : Calendar) (days : Int) (fuel : Nat) (current : Int)
    (daysAdded : Int) (h : ¬ daysAdded < days) :
    awdGo cal days fuel current daysAdded = some current := by
  rw [awdGo.eq_def, if_neg h]

theorem awdGo_fuel_out (cal : Calendar) (days : Int) (current : Int)
    (daysAdded : Int) (h : daysAdded < days) :
    awdGo cal days 0 current daysAdded = none := by
  rw [awdGo, if_pos h]

theorem awdGo_step (cal : Calendar) (days : Int) (f : Nat) (current : Int)
    (daysAdded : Int) (h : daysAdded < days) :
    awdGo cal days (f + 1) current daysAdded =
      awdGo cal days f (addDays current 1)
        (if cal.isWorkingDay (addDays current 1) then daysAdded + 1 else daysAdded) := by
  rw [awdGo, if_pos h]

theorem wdbGo_stop (cal : Calendar) (endDate : Int) (fuel : Nat) (current : Int)
    (h : ¬ current < endDate) : wdbGo cal endDate fuel current = 0 := by
  rw [wdbGo.eq_def, if_neg h]

theorem wdbGo_fuel_out (cal : Calendar) (endDate : Int) (current : Int)
    (h : current < endDate) : wdbGo cal endDate 0 current = 0 := by
  rw [wdbGo, if_pos h]

theorem wdbGo_step (cal : Calendar) (endDate : Int) (f : Nat) (current : Int)
    (h : current < endDate) :
    wdbGo cal endDate (f + 1) current =
      (if cal.isWorkingDay current then 1 else 0) +
        wdbGo cal endDate f (addDays current 1) := by
  rw [wdbGo, if_pos h]

theorem wdbGo_nonneg (cal : Calendar) (endDate : Int) :
    ∀ fuel current, 0 ≤ wdbGo cal endDate fuel current := by
  intro fuel
  induction fuel with
  | zero =>
    intro current
    by_cases h : current < endDate
    · rw [wdbGo_fuel_out cal endDate current h]
    · rw [wdbGo_stop cal endDate 0 current h]
  | succ f ih =>
    intro current
    by_cases h : current < endDate
    · rw [wdbGo_step cal endDate f current h]
      have := ih (addDays current 1)
      split <;> omega
    · rw [wdbGo_stop cal endDate (f + 1) current h]

theorem wdbGo_zero_of_ge (cal : Calendar) (endDate : Int) (fuel : Nat)
    (current : Int) (h : endDate ≤ current) : wdbGo cal endDate fuel current = 0 :=
  wdbGo_stop cal endDate fuel current (by omega)

/-- `awdGo` never moves backwards. -/
theorem awdGo_le (cal : Calendar) (days : Int) :
    ∀ fuel current daysAdded b, awdGo cal days fuel current daysAdded = some b →
      current ≤ b := by
  intro fuel
  induction fuel with
  | zero =>
    intro current daysAdded b h
    by_cases hlt : daysAdded < days
    · rw [awdGo_fuel_out cal days current daysAdded hlt] at h
      exact absurd h (by simp)
    · rw [awdGo_stop cal days 0 current daysAdded hlt] at h
      have : current = b := by simpa using h
      omega
  | succ f ih =>
    intro current daysAdded b h
    by_cases hlt : daysAdded < days
    · rw [awdGo_step cal days f current daysAdded hlt] at h
      have := ih (addDays current 1) _ b h
      simp only [addDays, msPerDay] at this ⊢
      omega
    · rw [awdGo_stop cal days (f + 1) current daysAdded hlt] at h
      have : current = b := by simpa using h
      omega

/-- Main loop invariant connecting `addWorkingDays` to `workingDaysBetween`:
if the addition loop, entered with `daysAdded < days`, terminates at `b`,
then counting working days from `c` (inclusive) up to `b` (exclusive)
gives `days - daysAdded - 1` plus one if `c` itself is a working day. -/
theorem awdGo_wdbGo (cal : Calendar) (days : Int) (b : Int) :
    ∀ fuel c daysAdded, daysAdded < days →
      awdGo cal days fuel c daysAdded = some b →
      ∀ fuelB, (b - c).toNat ≤ fuelB →
        wdbGo cal b fuelB c =
          (days - daysAdded - 1) + (if cal.isWorkingDay c then 1 else 0) := by
  intro fuel
  induction fuel with
  | zero =>
    intro c daysAdded hlt h
    rw [awdGo_fuel_out cal days c daysAdded hlt] at h
    exact absurd h (by simp)
  | succ f ih =>
    intro c daysAdded hlt h fuelB hfuel
    rw [awdGo_step cal days f c daysAdded hlt] at h
    by_cases hw : cal.isWorkingDay (addDays c 1)
    · rw [if_pos hw] at h
      by_cases hcase : daysAdded + 1 < days
      · -- loop continues past the next day
        have hnb : addDays c 1 ≤ b := awdGo_le cal days f (addDays c 1) _ b h
        have hcb : c < b := by
          simp only [addDays, msPerDay] at hnb
          omega
        match fuelB with
        | 0 =>
          exfalso
          omega
        | g + 1 =>
          rw [wdbGo_step cal b g c hcb]
          have hrec := ih (addDays c 1) (daysAdded + 1) hcase h g (by
            simp only [addDays, msPerDay] at *
            omega)
          rw [hrec, if_pos hw]
          omega
      · -- next day is the last added working day: the loop stops at it
        rw [awdGo_stop cal days f (addDays c 1) (daysAdded + 1) hcase] at h
        have hb : b = addDays c 1 := by simpa using h.symm
        have hcb : c < b := by
          simp only [hb, addDays, msPerDay]
          omega
        match fuelB with
        | 0 =>
          exfalso
          omega
        | g + 1 =>
          rw [wdbGo_step cal b g c hcb]
          rw [wdbGo_stop cal b g (addDays c 1) (by simp [hb])]
          omega
    · rw [if_neg hw] at h
      -- the next day is skipped; the loop continues with the same counter
      have hnb : addDays c 1 ≤ b := awdGo_le cal days f (addDays c 1) _ b h
      have hcb : c < b := by
        simp only [addDays, msPerDay] at hnb
        omega
      match fuelB with
      | 0 =>
        exfalso
        omega
      | g + 1 =>
        rw [wdbGo_step cal b g c hcb]
        have hrec := ih (addDays c 1) daysAdded hlt h g (by
          simp only [addDays, msPerDay] at *
          omega)
        rw [hrec, if_neg hw]
        omega

/-! ### Claim theorems about the calendar -/

/-- A calendar in calendar-day mode, used to exercise that branch. -/
def calendarDaysCalendar : Calendar :=
  { working_days := ["Mon", "Tue", "Wed", "Thu", "Fri"]
    holidays := []
    duration_unit := DurationUnit.calendar_days }

/-- C2: in working-day mode the source loop `while (daysAdded < days)` never
runs for `days ≤ 0`, so `addWorkingDays` returns `start` unchanged for every
non-positive count — it does not step backwards as the specification says. -/
theorem c2_addWorkingDays_nonpositive_is_noop (cal : Calendar) (start n : Int)
    (fuel : Nat) (hu : cal.duration_unit = DurationUnit.working_days) (hn : n ≤ 0) :
    cal.addWorkingDays start n fuel = some start := by
  unfold Calendar.addWorkingDays
  rw [if_neg (by rw [hu]; exact (by decide))]
  exact awdGo_stop cal n fuel start 0 (by omega)

/-- C2 witness: 1970-01-07 (day 6, a Wednesday) minus one working day is
returned unchanged by the code. -/
theorem c2_addWorkingDays_nonpositive_is_noop_witness :
    defaultCalendar.duration_unit = DurationUnit.working_days ∧ (-1 : Int) ≤ 0 ∧
      defaultCalendar.addWorkingDays (6 * msPerDay) (-1) 100 = some (6 * msPerDay) :=
  ⟨rfl, by decide,
    c2_addWorkingDays_nonpositive_is_noop defaultCalendar (6 * msPerDay) (-1) 100 rfl
      (by decide)⟩

/-- C4 (amended): the round trip
`workingDaysBetween(a, addWorkingDays(a, n)) = n` holds in working-day mode
for `n ≥ 0` whenever the start date `a` is itself a working day (for a
non-working start the count comes out one short, see the counterexample). -/
theorem c4_roundTrip_from_working_start (cal : Calendar) (a n : Int) (fuel : Nat)
    (b : Int) (hu : cal.duration_unit = DurationUnit.working_days)
    (hw : cal.isWorkingDay a = true) (hn : 0 ≤ n)
    (hrun : cal.addWorkingDays a n fuel = some b) :
    cal.workingDaysBetween a b = n := by
  unfold Calendar.addWorkingDays at hrun
  rw [if_neg (by rw [hu]; exact (by decide))] at hrun
  unfold Calendar.workingDaysBetween
  rw [if_neg (by rw [hu]; exact (by decide))]
  rcases lt_or_eq_of_le hn with hpos | hzero
  · have := awdGo_wdbGo cal n b fuel a 0 hpos hrun (b - a).toNat (le_refl _)
    rw [this, hw]
    simp
  · rw [awdGo_stop cal n fuel a 0 (by omega)] at hrun
    have hb : a = b := by simpa using hrun
    rw [wdbGo_stop cal b _ a (by omega)]
    omega

/-- C4 witness: from Monday 1970-01-05 (day 4), two working days land on
Wednesday (day 6) and are counted back as two. -/
theorem c4_roundTrip_from_working_start_witness :
    defaultCalendar.isWorkingDay (4 * msPerDay) = true ∧ (0 : Int) ≤ 2 ∧
      defaultCalendar.addWorkingDays (4 * msPerDay) 2 10 = some (6 * msPerDay) ∧
      defaultCalendar.workingDaysBetween (4 * msPerDay) (6 * msPerDay) = 2 :=
  ⟨by decide, by decide, by decide,
    c4_roundTrip_from_working_start defaultCalendar (4 * msPerDay) 2 10 (6 * msPerDay)
      rfl (by decide) (by decide) (by decide)⟩

/-- C4 counterexample: starting from Saturday 1970-01-03 (day 2, not a
working day), one added working day reaches Monday (day 4), but counting
back gives 0, not 1 — the claimed unconditional round trip fails. -/
theorem c4_roundTrip_counterexample :
    defaultCalendar.duration_unit = DurationUnit.working_days ∧
      defaultCalendar.addWorkingDays (2 * msPerDay) 1 10 = some (4 * msPerDay) ∧
      defaultCalendar.workingDaysBetween (2 * msPerDay) (4 * msPerDay) = 0 ∧
      (0 : Int) ≠ 1 := by
  refine ⟨rfl, by decide, by decide, by decide⟩

/-- C5 (amended): `isWorkingDay` is false exactly when some configured
holiday carries the very same timestamp (`getTime()` equality, no
normalization of the time of day) or the weekday name is not configured. -/
theorem c5_isWorkingDay_exact_timestamp_only (cal : Calendar) (dt : Int) :
    cal.isWorkingDay dt = false ↔
      (dt ∈ cal.holidays ∨ dayName dt ∉ cal.working_days) := by
  unfold Calendar.isWorkingDay
  by_cases hh : cal.holidays.any (fun x => x == dt)
  · rw [if_pos hh]
    simp only [List.any_eq_true, beq_iff_eq] at hh
    obtain ⟨x, hx, rfl⟩ := hh
    simp [hx]
  · rw [if_neg hh]
    simp only [List.any_eq_true, beq_iff_eq, not_exists, not_and] at hh
    constructor
    · intro hc
      right
      intro hmem
      have h1 : cal.working_days.elem (dayName dt) = true :=
        List.elem_eq_true_of_mem hmem
      have h2 : cal.working_days.contains (dayName dt) = true := h1
      rw [h2] at hc
      simp at hc
    · intro hor
      rcases hor with hmem | hnot
      · exact absurd rfl (hh dt hmem)
      · cases helem : cal.working_days.elem (dayName dt) with
        | false => exact helem
        | true => exact absurd (List.mem_of_elem_eq_true helem) hnot

/-- Calendar used by the C5 counterexample: one holiday at midnight of
1970-01-05 (a Monday). -/
def c5Calendar : Calendar :=
  { working_days := ["Mon", "Tue", "Wed", "Thu", "Fri"]
    holidays := [4 * msPerDay]
    duration_unit := DurationUnit.working_days }

/-- C5 counterexample: one hour past midnight of the configured holiday is
the same calendar day, yet `isWorkingDay` returns true because the
comparison is exact timestamp equality. -/
theorem c5_counterexample :
    (4 * msPerDay) ∈ c5Calendar.holidays ∧
      calendarDay (4 * msPerDay) = calendarDay (4 * msPerDay + 3600000) ∧
      c5Calendar.isWorkingDay (4 * msPerDay + 3600000) = true := by
  refine ⟨by decide, by decide, by decide⟩

/-- C9: in working-day mode `workingDaysBetween` is 0 whenever `end ≤ start`
and is never negative; in calendar-day mode it is the signed
`differenceInDays`, negative whenever `end` is an earlier day than
`start`. -/
theorem c9_reversed_order_convention :
    (∀ (cal : Calendar) (s e : Int), cal.duration_unit = DurationUnit.working_days →
        e ≤ s → cal.workingDaysBetween s e = 0) ∧
    (∀ (cal : Calendar) (s e : Int), cal.duration_unit = DurationUnit.working_days →
        0 ≤ cal.workingDaysBetween s e) ∧
    (∀ (cal : Calendar) (s e : Int), cal.duration_unit = DurationUnit.calendar_days →
        cal.workingDaysBetween s e = differenceInDays e s) ∧
    (∀ (cal : Calendar) (j k : Int), cal.duration_unit = DurationUnit.calendar_days →
        k < j → cal.workingDaysBetween (j * msPerDay) (k * msPerDay) < 0) := by
  refine ⟨?_, ?_, ?_, ?_⟩
  · intro cal s e hu he
    unfold Calendar.workingDaysBetween
    rw [if_neg (by rw [hu]; exact (by decide))]
    exact wdbGo_zero_of_ge cal e _ s he
  · intro cal s e hu
    unfold Calendar.workingDaysBetween
    rw [if_neg (by rw [hu]; exact (by decide))]
    exact wdbGo_nonneg cal e _ s
  · intro cal s e hu
    unfold Calendar.workingDaysBetween
    rw [if_pos hu]
  · intro cal j k hu hk
    unfold Calendar.workingDaysBetween
    rw [if_pos hu]
    unfold differenceInDays
    have hcollect : k * msPerDay - j * msPerDay = (k - j) * msPerDay := by ring
    rw [hcollect, Int.mul_tdiv_cancel (k - j) (by decide)]
    omega

/-- C9 witness: concrete instances of all four conjuncts. -/
theorem c9_reversed_order_convention_witness :
    defaultCalendar.workingDaysBetween (5 * msPerDay) (3 * msPerDay) = 0 ∧
      0 ≤ defaultCalendar.workingDaysBetween 0 (3 * msPerDay) ∧
      calendarDaysCalendar.workingDaysBetween 0 (5 * msPerDay) =
        differenceInDays (5 * msPerDay) 0 ∧
      calendarDaysCalendar.workingDaysBetween (7 * msPerDay) (2 * msPerDay) < 0 :=
  ⟨c9_reversed_order_convention.1 defaultCalendar (5 * msPerDay) (3 * msPerDay) rfl
      (by decide),
    c9_reversed_order_convention.2.1 defaultCalendar 0 (3 * msPerDay) rfl,
    c9_reversed_order_convention.2.2.1 calendarDaysCalendar 0 (5 * msPerDay) rfl,
    c9_reversed_order_convention.2.2.2 calendarDaysCalendar 7 2 rfl (by decide)⟩

/-! ## Schedule model (`schedule-engine.ts:21-132`)

The structured input of `HierarchicalSchedule.load` after `yaml.load` and
date parsing: `Raw*` mirrors the YAML-level objects (absent fields are
`Option.none`, date strings are already timestamps), `Task` mirrors the
`Task` interface.  Project metadata (name, id, status strings) plays no
role in any computation below and is omitted.

Everything lives in namespace `SE` because `Task` would collide with the
core library. -/

namespace SE

inductive TaskStatus where
  | not_started
  | on_track
  | at_risk
  | delayed
  | complete
deriving DecidableEq, Repr

structure Dependency where
  task_id : String
  lag : Int
deriving DecidableEq, Repr

structure Constraint where
  ctype : String
  date : Int
  reason : Option String
deriving DecidableEq, Repr

structure Baseline where
  start : Int
  finish : Int
deriving DecidableEq, Repr

structure Task where
  id : String
  name : String
  duration : Int
  level : Int
  parent_id : Option String := none
  dependencies : List Dependency := []
  successors : List String := []
  owner : Option String := none
  start_date : Option Int := none
  end_date : Option Int := none
  late_start : Option Int := none
  late_finish : Option Int := none
  actual_start : Option Int := none
  actual_finish : Option Int := none
  progress : Int := 0
  status : TaskStatus := TaskStatus.not_started
  status_note : String := ""
  milestone : Bool := false
  constraint : Option Constraint := none
  is_critical : Bool := false
  float_days : Int := 0
  phase_id : Option String := none
  workstream_id : Option String := none
  baseline : Option Baseline := none
deriving DecidableEq, Repr

/-- A dependency entry of the raw spec: a bare id string or `{id, lag}`
(`schedule-engine.ts:349-356`). -/
inductive RawDep where
  | byId (id : String)
  | withLag (id : String) (lag : Option Int)
deriving DecidableEq, Repr

structure RawConstraint where
  date : Int
  reason : Option String
deriving DecidableEq, Repr

structure RawTask where
  id : String
  name : String
  duration : Option Int := none
  owner : Option String := none
  progress : Option Int := none
  status : Option TaskStatus := none
  status_note : Option String := none
  milestone : Option Bool := none
  depends_on : Option (List RawDep) := none
  actual_start : Option Int := none
  actual_finish : Option Int := none
  constraint : Option RawConstraint := none
  start : Option Int := none
deriving DecidableEq, Repr

structure RawWorkstream where
  id : String
  name : String
  tasks : List RawTask
deriving DecidableEq, Repr

structure RawPhase where
  id : String
  name : String
  workstreams : List RawWorkstream
deriving DecidableEq, Repr

structure RawSpec where
  start_date : Int
  calendar : Calendar
  baseline : List (String × Baseline) := []
  phases : List RawPhase
deriving DecidableEq, Repr

/-! ### The task map

`HierarchicalSchedule.tasks` is a JavaScript `Map`: insertion-ordered,
`set` on an existing key replaces the value in place, `get` returns the
binding.  Modelled as an association list. -/

abbrev TaskMap := List (String × Task)

def mapGet (m : TaskMap) (k : String) : Option Task :=
  match m with
  | [] => none
  | p :: rest => if p.1 == k then some p.2 else mapGet rest k

def mapSet (m : TaskMap) (k : String) (v : Task) : TaskMap :=
  match m with
  | [] => [(k, v)]
  | p :: rest => if p.1 == k then (k, v) :: rest else p :: mapSet rest k v

def mapHas (m : TaskMap) (k : String) : Bool :=
  (mapGet m k).isSome

def mapValues (m : TaskMap) : List Task := m.map (fun p => p.2)

def mapKeys (m : TaskMap) : List String := m.map (fun p => p.1)

def lookupAssoc {α : Type} (l : List (String × α)) (k : String) : Option α :=
  match l with
  | [] => none
  | p :: rest => if p.1 == k then some p.2 else lookupAssoc rest k

/-! ### Parsing (`schedule-engine.ts:265-313` and `323-389`) -/

/-- `parseTask`: a level-3 task from its raw entry, with the source's
`|| 0` / `|| false` / `|| ''` defaults. -/
def parseTask (taskData : RawTask) (phaseId wsId : String)
    (baselineTasks : List (String × Baseline)) : Task :=
  { id := taskData.id
    name := taskData.name
    duration := taskData.duration.getD 0
    level := 3
    parent_id := some wsId
    phase_id := some phaseId
    workstream_id := some wsId
    dependencies :=
      match taskData.depends_on with
      | some deps =>
        deps.map (fun dep =>
          match dep with
          | RawDep.byId s => { task_id := s, lag := 0 }
          | RawDep.withLag i l => { task_id := i, lag := l.getD 0 })
      | none => []
    successors := []
    owner := taskData.owner
    progress := taskData.progress.getD 0
    status := taskData.status.getD TaskStatus.not_started
    status_note := taskData.status_note.getD ("")
    milestone := taskData.milestone.getD false
    is_critical := false
    float_days := 0
    actual_start := taskData.actual_start
    actual_finish := taskData.actual_finish
    constraint := taskData.constraint.map (fun c =>
      { ctype := "no_earlier_than", date := c.date, reason := c.reason })
    start_date := taskData.start
    baseline := lookupAssoc baselineTasks taskData.id }

/-- The synthesized level-1 phase entry (`schedule-engine.ts:269-283`). -/
def phaseTask (phase : RawPhase) : Task :=
  { id := phase.id
    name := phase.name
    duration := 0
    level := 1 }

/-- The synthesized level-2 workstream entry (`schedule-engine.ts:289-305`). -/
def wsTask (phase : RawPhase) (ws : RawWorkstream) : Task :=
  { id := ws.id
    name := ws.name
    duration := 0
    level := 2
    parent_id := some phase.id
    phase_id := some phase.id }

/-- The hierarchy walk of `load` (`schedule-engine.ts:265-313`): every phase,
workstream and task is `Map.set` into the shared task map (so a repeated id
silently replaces the earlier entry). -/
def buildTasks (spec : RawSpec) : TaskMap × List String × List String :=
  spec.phases.foldl (fun acc phase =>
    let m := mapSet acc.1 phase.id (phaseTask phase)
    let phs := acc.2.1 ++ [phase.id]
    phase.workstreams.foldl (fun acc2 ws =>
      let m2 := mapSet acc2.1 ws.id (wsTask phase ws)
      let wss := acc2.2.2 ++ [ws.id]
      let m3 := ws.tasks.foldl (fun mm td =>
        mapSet mm td.id (parseTask td phase.id ws.id spec.baseline)) m2
      (m3, acc2.2.1, wss)) (m, phs, acc.2.2)) ([], [], [])

/-! ### Validation (`schedule-engine.ts:404-475`) -/

inductive LoadError where
  | validation (msg : String)
  | fuel
deriving DecidableEq, Repr

/-- Duplicate scan of `validate` (`schedule-engine.ts:412-419`): walk the
map's values with a growing seen-set. -/
def firstDuplicateId (tasks : List Task) (seen : List String) : Option String :=
  match tasks with
  | [] => none
  | t :: rest => if seen.contains t.id then some t.id else firstDuplicateId rest (t.id :: seen)

/-- Unresolved-dependency scan of `validate` (`schedule-engine.ts:421-430`). -/
def firstBadDependency (m : TaskMap) : List Task → Option (String × String)
  | [] => none
  | t :: rest =>
    match t.dependencies.find? (fun d => !(mapHas m d.task_id)) with
    | some d => some (t.id, d.task_id)
    | none => firstBadDependency m rest

/-- `checkCircularDependencies` (`schedule-engine.ts:450-475`): depth-first
visit with an explicit recursion stack; the worklist `ids` holds the ids
still to visit at the current stack.  `fuel` bounds the total number of
steps (the JavaScript recursion always terminates; exhaustion is reported
as the distinct `LoadError.fuel`, never as a validation error). -/
def visitCycles (m : TaskMap) (fuel : Nat) (ids : List String)
    (visited stack : List String) : Except LoadError (List String) :=
  match fuel with
  | 0 => Except.error LoadError.fuel
  | f + 1 =>
    match ids with
    | [] => Except.ok visited
    | taskId :: rest =>
      if stack.contains taskId then
        Except.error (LoadError.validation
          ("Circular dependency detected: " ++ String.intercalate (" → ") stack
            ++ " → " ++ taskId))
      else if visited.contains taskId then
        visitCycles m f rest visited stack
      else
        let visited2 := taskId :: visited
        match mapGet m taskId with
        | none => visitCycles m f rest visited2 stack
        | some task =>
          match visitCycles m f (task.dependencies.map (fun d => d.task_id))
              visited2 (stack ++ [taskId]) with
          | Except.error e => Except.error e
          | Except.ok visited3 => visitCycles m f rest visited3 stack

/-- `validate` (`schedule-engine.ts:404-448`), in source order: missing id,
duplicate id, unresolved dependency, circular dependency, milestone
duration, progress range. -/
def validate (m : TaskMap) (fuel : Nat) : Except LoadError Unit :=
  match (mapValues m).find? (fun t => t.id == "") with
  | some t => Except.error (LoadError.validation ("Task missing ID: " ++ t.name))
  | none =>
  match firstDuplicateId (mapValues m) [] with
  | some i => Except.error (LoadError.validation ("Duplicate task ID: " ++ i))
  | none =>
  match firstBadDependency m (mapValues m) with
  | some p => Except.error (LoadError.validation
      ("Task " ++ p.1 ++ " depends on non-existent task: " ++ p.2))
  | none =>
  match visitCycles m fuel (mapKeys m) [] [] with
  | Except.error e => Except.error e
  | Except.ok _ =>
  match (mapValues m).find? (fun t => t.milestone && t.duration != 0) with
  | some t => Except.error (LoadError.validation
      ("Milestone " ++ t.id ++ " must have duration=0"))
  | none =>
  match (mapValues m).find? (fun t => decide (t.progress < 0) || decide (t.progress > 100)) with
  | some t => Except.error (LoadError.validation
      ("Task " ++ t.id ++ " progress must be 0-100"))
  | none => Except.ok ()

/-- Decidable equality for `Except` results, so concrete pipeline runs can
be checked by `decide`. -/
instance {e a : Type} [DecidableEq e] [DecidableEq a] : DecidableEq (Except e a) :=
  fun x y =>
    match x, y with
    | Except.error u, Except.error v =>
      decidable_of_iff (u = v) (by constructor
                                   · intro h
                                     rw [h]
                                   · intro h
                                     injection h)
    | Except.error _, Except.ok _ => isFalse (by intro h; injection h)
    | Except.ok _, Except.error _ => isFalse (by intro h; injection h)
    | Except.ok u, Except.ok v =>
      decidable_of_iff (u = v) (by constructor
                                   · intro h
                                     rw [h]
                                   · intro h
                                     injection h)

/-! ### Successors (`schedule-engine.ts:481-496`) -/

def clearSuccessors (m : TaskMap) : TaskMap :=
  m.map (fun p => (p.1, { p.2 with successors := [] }))

def pushSuccessor (m : TaskMap) (predId succId : String) : TaskMap :=
  match mapGet m predId with
  | some t => mapSet m predId { t with successors := t.successors ++ [succId] }
  | none => m

def buildSuccessors (m : TaskMap) : TaskMap :=
  let cleared := clearSuccessors m
  (mapValues cleared).foldl (fun acc t =>
    t.dependencies.foldl (fun acc2 d => pushSuccessor acc2 d.task_id t.id) acc) cleared

/-! ### Forward pass (`schedule-engine.ts:502-597`) -/

/-- `Math.ceil(a / b)` for integers with `b > 0`. -/
def jsCeilDiv (a b : Int) : Int := -(Int.fdiv (-a) b)

/-- `HierarchicalSchedule.addDuration` (`schedule-engine.ts:590-597`).  The
source's `days < 0` branch is kept even though it calls the very same
`addWorkingDays` as the positive branch (which ignores negative counts). -/
def addDuration (cal : Calendar) (start days : Int) (awdFuel : Nat) : Option Int :=
  if days == 0 then some start
  else if days < 0 then cal.addWorkingDays start days awdFuel
  else cal.addWorkingDays start days awdFuel

/-- The max-over-predecessors fold of the forward pass
(`schedule-engine.ts:543-552`): starts from `new Date(0)`, i.e. timestamp 0. -/
def maxPredFinish (cal : Calendar) (m : TaskMap) (awdFuel : Nat)
    (deps : List Dependency) : Except LoadError Int :=
  deps.foldlM (fun acc dep =>
    match mapGet m dep.task_id with
    | some pred =>
      match pred.end_date with
      | some e =>
        match cal.addWorkingDays e dep.lag awdFuel with
        | some predFinish => Except.ok (if acc < predFinish then predFinish else acc)
        | none => Except.error LoadError.fuel
      | none => Except.ok acc
    | none => Except.ok acc) 0

/-- The date computation of `calcTask` after its dependencies are settled
(`schedule-engine.ts:530-579`): early start in the source's priority order,
`no_earlier_than` clamp, then the finish date from progress; returns the
`(start_date, end_date)` pair the source assigns to the task. -/
def forwardDates (cal : Calendar) (projectStart today : Int) (awdFuel : Nat)
    (m : TaskMap) (task : Task) : Except LoadError (Int × Int) :=
    let esBase : Except LoadError Int :=
      match task.actual_start with
      | some a => Except.ok a
      | none =>
        if task.dependencies.isEmpty then
          match task.start_date with
          | some sd => Except.ok sd
          | none => Except.ok projectStart
        else
          match maxPredFinish cal m awdFuel task.dependencies with
          | Except.error e => Except.error e
          | Except.ok mp => Except.ok (if 0 < mp then mp else projectStart)
    match esBase with
    | Except.error e => Except.error e
    | Except.ok es0 =>
      let earlyStart :=
        match task.constraint with
        | some c => if c.ctype == "no_earlier_than" && es0 < c.date then c.date else es0
        | none => es0
      let endE : Except LoadError Int :=
        if task.progress == 100 then
          match task.actual_finish with
          | some af => Except.ok af
          | none =>
            match addDuration cal earlyStart task.duration awdFuel with
            | some e => Except.ok e
            | none => Except.error LoadError.fuel
        else
          match task.actual_start with
          | some as0 =>
            if 0 < task.progress then
              -- in-progress forecast from *today*; the source also computes
              -- an elapsedDays value it never uses
              let _elapsedDays := cal.workingDaysBetween as0 today
              let remainingDays := jsCeilDiv (task.duration * (100 - task.progress)) 100
              match cal.addWorkingDays today remainingDays awdFuel with
              | some e => Except.ok e
              | none => Except.error LoadError.fuel
            else
              match addDuration cal earlyStart task.duration awdFuel with
              | some e => Except.ok e
              | none => Except.error LoadError.fuel
          | none =>
            match addDuration cal earlyStart task.duration awdFuel with
            | some e => Except.ok e
            | none => Except.error LoadError.fuel
      match endE with
      | Except.error e => Except.error e
      | Except.ok ed => Except.ok (earlyStart, ed)

/-- The per-task body of `calcTask` after its dependencies are settled:
compute the dates, then write them onto the task (`schedule-engine.ts:565`
and `570-578`). -/
def forwardFinish (cal : Calendar) (projectStart today : Int) (awdFuel : Nat)
    (m : TaskMap) (taskId : String) : Except LoadError TaskMap :=
  match mapGet m taskId with
  | none => Except.ok m
  | some task =>
    match forwardDates cal projectStart today awdFuel m task with
    | Except.error e => Except.error e
    | Except.ok p =>
      Except.ok (mapSet m taskId { task with start_date := some p.1, end_date := some p.2 })

/-- `calcTask` over a worklist (`schedule-engine.ts:505-587`): memoized
recursive forward pass.  `fuel` decreases on every step so the recursion is
structural; any run of the JavaScript original is reproduced by a large
enough fuel. -/
def calcMany (cal : Calendar) (projectStart today : Int) (awdFuel : Nat) :
    Nat → List String → TaskMap → List String → Except LoadError (TaskMap × List String)
  | 0, _, _, _ => Except.error LoadError.fuel
  | _ + 1, [], m, visited => Except.ok (m, visited)
  | f + 1, taskId :: rest, m, visited =>
    if visited.contains taskId then
      calcMany cal projectStart today awdFuel f rest m visited
    else
      match mapGet m taskId with
      | none => calcMany cal projectStart today awdFuel f rest m visited
      | some task =>
        if task.level < 3 then
          calcMany cal projectStart today awdFuel f rest m (taskId :: visited)
        else
          match task.actual_finish with
          | some af =>
            -- settled by actuals, no dependency evaluation:
            -- start = actual_start || actual_finish - duration
            match task.actual_start with
            | some a =>
              calcMany cal projectStart today awdFuel f rest
                (mapSet m taskId { task with end_date := some af, start_date := some a })
                (taskId :: visited)
            | none =>
              match addDuration cal af (-task.duration) awdFuel with
              | none => Except.error LoadError.fuel
              | some sd =>
                calcMany cal projectStart today awdFuel f rest
                  (mapSet m taskId { task with end_date := some af, start_date := some sd })
                  (taskId :: visited)
          | none =>
            match calcMany cal projectStart today awdFuel f
                (task.dependencies.map (fun d => d.task_id)) m visited with
            | Except.error e => Except.error e
            | Except.ok (m2, visited2) =>
              match forwardFinish cal projectStart today awdFuel m2 taskId with
              | Except.error e => Except.error e
              | Except.ok m3 =>
                calcMany cal projectStart today awdFuel f rest m3 (taskId :: visited2)

/-- `calculateDates` (`schedule-engine.ts:502-588`). -/
def calculateDates (cal : Calendar) (projectStart today : Int) (awdFuel fuel : Nat)
    (m : TaskMap) : Except LoadError TaskMap :=
  match calcMany cal projectStart today awdFuel fuel (mapKeys m) m [] with
  | Except.error e => Except.error e
  | Except.ok p => Except.ok p.1

/-! ### Rollup (`schedule-engine.ts:603-695`) -/

/-- `Math.min(...)` over a non-empty list (the source guards emptiness). -/
def listMin (l : List Int) : Int :=
  match l with
  | [] => 0
  | x :: xs => xs.foldl (fun a b => if b < a then b else a) x

def listMax (l : List Int) : Int :=
  match l with
  | [] => 0
  | x :: xs => xs.foldl (fun a b => if a < b then b else a) x

/-- `Math.round(num / den)` for integers with `den > 0`: round half up,
`⌊num/den + 1/2⌋ = ⌊(2·num + den) / (2·den)⌋`. -/
def jsRoundDiv (num den : Int) : Int := Int.fdiv (2 * num + den) (2 * den)

/-- The duration-weighted progress rollup (`schedule-engine.ts:628-634` and
`674-680`): when the children's total duration is positive, the rounded
weighted mean of their progress; otherwise the parent's progress is left
unchanged. -/
def rollupProgress (children : List Task) (current : Int) : Int :=
  let totalDuration := children.foldl (fun sum t => sum + t.duration) 0
  if 0 < totalDuration then
    jsRoundDiv (children.foldl (fun sum t => sum + t.progress * t.duration) 0) totalDuration
  else current

/-- `statusPriority` (`schedule-engine.ts:637-643`). -/
def statusPriority : TaskStatus → Int
  | TaskStatus.delayed => 4
  | TaskStatus.at_risk => 3
  | TaskStatus.on_track => 2
  | TaskStatus.complete => 1
  | TaskStatus.not_started => 0

/-- Worst-case status reduce (`schedule-engine.ts:644-647`). -/
def worstStatus (ts : List Task) : TaskStatus :=
  ts.foldl (fun worst t =>
    if statusPriority worst < statusPriority t.status then t.status else worst)
    TaskStatus.not_started

/-- The field updates a summary rollup performs on a parent entry
(`schedule-engine.ts:615-647`): dates only when children carry them, the
duration only when both dates are present afterwards, then weighted
progress and worst-case status. -/
def rollupUpdate (cal : Calendar) (parent : Task) (children : List Task) : Task :=
  let starts := children.filterMap (fun t => t.start_date)
  let ends := children.filterMap (fun t => t.end_date)
  let newStart := if starts.isEmpty then parent.start_date else some (listMin starts)
  let newEnd := if ends.isEmpty then parent.end_date else some (listMax ends)
  let newDuration :=
    match newStart, newEnd with
    | some s, some e => cal.workingDaysBetween s e
    | _, _ => parent.duration
  { parent with
    start_date := newStart
    end_date := newEnd
    duration := newDuration
    progress := rollupProgress children parent.progress
    status := worstStatus children }

/-- One workstream rollup (`schedule-engine.ts:605-648`). -/
def rollupWorkstream (cal : Calendar) (m : TaskMap) (wsId : String) : TaskMap :=
  match mapGet m wsId with
  | none => m
  | some ws =>
    let wsTasks := (mapValues m).filter (fun t =>
      t.workstream_id == some wsId && t.level == 3)
    if wsTasks.isEmpty then m
    else mapSet m wsId (rollupUpdate cal ws wsTasks)

/-- One phase rollup (`schedule-engine.ts:651-694`), over its level-2
workstreams. -/
def rollupPhase (cal : Calendar) (m : TaskMap) (phaseId : String) : TaskMap :=
  match mapGet m phaseId with
  | none => m
  | some phase =>
    let phaseWs := (mapValues m).filter (fun t =>
      t.phase_id == some phaseId && t.level == 2)
    if phaseWs.isEmpty then m
    else mapSet m phaseId (rollupUpdate cal phase phaseWs)

/-- `rollupSummaries` (`schedule-engine.ts:603-695`): all workstreams, then
all phases. -/
def rollupSummaries (cal : Calendar) (m : TaskMap)
    (workstreams phases : List String) : TaskMap :=
  let m1 := workstreams.foldl (rollupWorkstream cal) m
  phases.foldl (rollupPhase cal) m1

/-! ### Backward pass (`schedule-engine.ts:701-766`) -/

/-- The min-over-successors fold (`schedule-engine.ts:732-744`): starts from
`projectEnd`, looks the lag up in the successor's own dependency entry. -/
def minSuccStart (cal : Calendar) (m : TaskMap) (awdFuel : Nat) (taskId : String)
    (succs : List String) (projectEnd : Int) : Except LoadError Int :=
  succs.foldlM (fun acc succId =>
    match mapGet m succId with
    | some succ =>
      match succ.late_start with
      | some ls =>
        let lag :=
          match succ.dependencies.find? (fun d => d.task_id == taskId) with
          | some d => d.lag
          | none => 0
        match cal.addWorkingDays ls (-lag) awdFuel with
        | some succStart => Except.ok (if succStart < acc then succStart else acc)
        | none => Except.error LoadError.fuel
      | none => Except.ok acc
    | none => Except.ok acc) projectEnd

/-- The late-finish computation of `calcLate` (`schedule-engine.ts:729-748`):
the project end, pulled back to the minimum over successors when that is
strictly earlier. -/
def lateFinishE (cal : Calendar) (m : TaskMap) (awdFuel : Nat) (taskId : String)
    (task : Task) (projectEnd : Int) : Except LoadError Int :=
  if task.successors.isEmpty then Except.ok projectEnd
  else
    match minSuccStart cal m awdFuel taskId task.successors projectEnd with
    | Except.error e => Except.error e
    | Except.ok mss => Except.ok (if mss < projectEnd then mss else projectEnd)

/-- The writes of `calcLate` (`schedule-engine.ts:750-757`): late dates, and
float/criticality when an end date is present. -/
def lateUpdate (cal : Calendar) (task : Task) (lateFinish lateStart : Int) : Task :=
  let t3 := { task with late_finish := some lateFinish, late_start := some lateStart }
  match task.end_date with
  | some ed =>
    let fd := cal.workingDaysBetween ed lateFinish
    { t3 with float_days := fd, is_critical := decide (fd ≤ 0) }
  | none => t3

/-- `calcLate` over a worklist (`schedule-engine.ts:714-760`): memoized
backward pass over successors. -/
def calcLateMany (cal : Calendar) (projectEnd : Int) (awdFuel : Nat) :
    Nat → List String → TaskMap → List String → Except LoadError (TaskMap × List String)
  | 0, _, _, _ => Except.error LoadError.fuel
  | _ + 1, [], m, visited => Except.ok (m, visited)
  | f + 1, taskId :: rest, m, visited =>
    if visited.contains taskId then
      calcLateMany cal projectEnd awdFuel f rest m visited
    else
      match mapGet m taskId with
      | none => calcLateMany cal projectEnd awdFuel f rest m (taskId :: visited)
      | some task =>
        if task.level < 3 then
          calcLateMany cal projectEnd awdFuel f rest m (taskId :: visited)
        else
          match calcLateMany cal projectEnd awdFuel f task.successors m visited with
          | Except.error e => Except.error e
          | Except.ok (m2, visited2) =>
            match mapGet m2 taskId with
            | none => calcLateMany cal projectEnd awdFuel f rest m2 (taskId :: visited2)
            | some task2 =>
              match lateFinishE cal m2 awdFuel taskId task2 projectEnd with
              | Except.error e => Except.error e
              | Except.ok lateFinish =>
                match addDuration cal lateFinish (-task2.duration) awdFuel with
                | none => Except.error LoadError.fuel
                | some lateStart =>
                  calcLateMany cal projectEnd awdFuel f rest
                    (mapSet m2 taskId (lateUpdate cal task2 lateFinish lateStart))
                    (taskId :: visited2)

/-- `calculateCriticalPath` (`schedule-engine.ts:701-766`). -/
def calculateCriticalPath (cal : Calendar) (awdFuel fuel : Nat) (m : TaskMap) :
    Except LoadError TaskMap :=
  let allEndDates := (mapValues m).filterMap (fun t =>
    if t.level == 3 then t.end_date else none)
  if allEndDates.isEmpty then Except.ok m
  else
    let projectEnd := listMax allEndDates
    match calcLateMany cal projectEnd awdFuel fuel (mapKeys m) m [] with
    | Except.error e => Except.error e
    | Except.ok p => Except.ok p.1

/-! ### Load (`schedule-engine.ts:233-321`) -/

structure Schedule where
  tasks : TaskMap
  phases : List String
  workstreams : List String
  calendar : Calendar
  project_start : Int
deriving DecidableEq, Repr

/-- `HierarchicalSchedule.load` after metadata parsing: build the task map,
validate, build successors, forward pass, rollup, backward pass.  `today`
is the wall-clock date `new Date()` consulted by the in-progress forecast;
`fuel`/`awdFuel` bound the recursions and loops (any actual run of the
JavaScript original is reproduced by large enough fuels). -/
def load (spec : RawSpec) (fuel awdFuel : Nat) (today : Int) :
    Except LoadError Schedule :=
  let built := buildTasks spec
  let m0 := built.1
  let phases := built.2.1
  let workstreams := built.2.2
  match validate m0 fuel with
  | Except.error e => Except.error e
  | Except.ok _ =>
    let m1 := buildSuccessors m0
    match calculateDates spec.calendar spec.start_date today awdFuel fuel m1 with
    | Except.error e => Except.error e
    | Except.ok m2 =>
      let m3 := rollupSummaries spec.calendar m2 workstreams phases
      match calculateCriticalPath spec.calendar awdFuel fuel m3 with
      | Except.error e => Except.error e
      | Except.ok m4 =>
        Except.ok { tasks := m4, phases := phases, workstreams := workstreams,
                    calendar := spec.calendar, project_start := spec.start_date }

/-! ### Claim theorems about the pipeline: concrete schedules -/

/-- A specification carrying two level-3 task entries sharing id `T1`
(different names and durations so the survivor is observable). -/
def c1DupSpec : RawSpec :=
  { start_date := 4 * msPerDay
    calendar := defaultCalendar
    phases := [
      { id := "PHASE1", name := "Phase 1", workstreams := [
        { id := "WS1", name := "Workstream 1", tasks := [
          { id := "T1", name := "first", duration := some 1 },
          { id := "T1", name := "second", duration := some 2 } ] } ] } ] }

/-- C1: a specification with two distinct task entries sharing id `T1`
loads *without* any `ValidationError` and returns a schedule: `Map.set`
silently replaced the first entry with the second before `validate` ran, so
the duplicate check of `validate` (which walks the already-deduplicated map
values) can never fire.  The resulting schedule holds three entries and the
second `T1` definition won. -/
theorem c1_duplicate_id_silently_overwrites :
    (match load c1DupSpec 50 100 0 with
     | Except.ok s =>
       some (s.tasks.length, (mapGet s.tasks ("T1")).map (fun (t : Task) => (t.name, t.duration)))
     | Except.error _ => none) = some (3, some ("second", 2)) := by
  decide

/-- The two-task dependency chain of the specification's critical-path
property: `TASK1` feeding `TASK2` (one working day each — the claim fixes
no durations), no slack anywhere else, project start Monday 1970-01-05. -/
def c3ChainSpec : RawSpec :=
  { start_date := 4 * msPerDay
    calendar := defaultCalendar
    phases := [
      { id := "PHASE1", name := "Phase 1", workstreams := [
        { id := "WS1", name := "Workstream 1", tasks := [
          { id := "TASK1", name := "Task 1", duration := some 1 },
          { id := "TASK2", name := "Task 2", duration := some 1,
            depends_on := some [RawDep.byId "TASK1"] } ] } ] } ] }

/- The intermediate task maps of `load c3ChainSpec`, stage by stage, written
out literally so each pipeline stage can be checked by evaluation on its
own (one evaluation per stage instead of one deeply nested term). -/

def c3M0 : TaskMap :=
[("PHASE1",
  { id := "PHASE1",
    name := "Phase 1",
    duration := 0,
    level := 1,
    parent_id := none,
    dependencies := [],
    successors := [],
    owner := none,
    start_date := none,
    end_date := none,
    late_start := none,
    late_finish := none,
    actual_start := none,
    actual_finish := none,
    progress := 0,
    status := SE.TaskStatus.not_started,
    status_note := "",
    milestone := false,
    constraint := none,
    is_critical := false,
    float_days := 0,
    phase_id := none,
    workstream_id := none,
    baseline := none }),
 ("WS1",
  { id := "WS1",
    name := "Workstream 1",
    duration := 0,
    level := 2,
    parent_id := some ("PHASE1"),
    dependencies := [],
    successors := [],
    owner := none,
    start_date := none,
    end_date := none,
    late_start := none,
    late_finish := none,
    actual_start := none,
    actual_finish := none,
    progress := 0,
    status := SE.TaskStatus.not_started,
    status_note := "",
    milestone := false,
    constraint := none,
    is_critical := false,
    float_days := 0,
    phase_id := some ("PHASE1"),
    workstream_id := none,
    baseline := none }),
 ("TASK1",
  { id := "TASK1",
    name := "Task 1",
    duration := 1,
    level := 3,
    parent_id := some ("WS1"),
    dependencies := [],
    successors := [],
    owner := none,
    start_date := none,
    end_date := none,
    late_start := none,
    late_finish := none,
    actual_start := none,
    actual_finish := none,
    progress := 0,
    status := SE.TaskStatus.not_started,
    status_note := "",
    milestone := false,
    constraint := none,
    is_critical := false,
    float_days := 0,
    phase_id := some ("PHASE1"),
    workstream_id := some ("WS1"),
    baseline := none }),
 ("TASK2",
  { id := "TASK2",
    name := "Task 2",
    duration := 1,
    level := 3,
    parent_id := some ("WS1"),
    dependencies := [{ task_id := "TASK1", lag := 0 }],
    successors := [],
    owner := none,
    start_date := none,
    end_date := none,
    late_start := none,
    late_finish := none,
    actual_start := none,
    actual_finish := none,
    progress := 0,
    status := SE.TaskStatus.not_started,
    status_note := "",
    milestone := false,
    constraint := none,
    is_critical := false,
    float_days := 0,
    phase_id := some ("PHASE1"),
    workstream_id := some ("WS1"),
    baseline := none })]

def c3M1 : TaskMap :=
[("PHASE1",
  { id := "PHASE1",
    name := "Phase 1",
    duration := 0,
    level := 1,
    parent_id := none,
    dependencies := [],
    successors := [],
    owner := none,
    start_date := none,
    end_date := none,
    late_start := none,
    late_finish := none,
    actual_start := none,
    actual_finish := none,
    progress := 0,
    status := SE.TaskStatus.not_started,
    status_note := "",
    milestone := false,
    constraint := none,
    is_critical := false,
    float_days := 0,
    phase_id := none,
    workstream_id := none,
    baseline := none }),
 ("WS1",
  { id := "WS1",
    name := "Workstream 1",
    duration := 0,
    level := 2,
    parent_id := some ("PHASE1"),
    dependencies := [],
    successors := [],
    owner := none,
    start_date := none,
    end_date := none,
    late_start := none,
    late_finish := none,
    actual_start := none,
    actual_finish := none,
    progress := 0,
    status := SE.TaskStatus.not_started,
    status_note := "",
    milestone := false,
    constraint := none,
    is_critical := false,
    float_days := 0,
    phase_id := some ("PHASE1"),
    workstream_id := none,
    baseline := none }),
 ("TASK1",
  { id := "TASK1",
    name := "Task 1",
    duration := 1,
    level := 3,
    parent_id := some ("WS1"),
    dependencies := [],
    successors := ["TASK2"],
    owner := none,
    start_date := none,
    end_date := none,
    late_start := none,
    late_finish := none,
    actual_start := none,
    actual_finish := none,
    progress := 0,
    status := SE.TaskStatus.not_started,
    status_note := "",
    milestone := false,
    constraint := none,
    is_critical := false,
    float_days := 0,
    phase_id := some ("PHASE1"),
    workstream_id := some ("WS1"),
    baseline := none }),
 ("TASK2",
  { id := "TASK2",
    name := "Task 2",
    duration := 1,
    level := 3,
    parent_id := some ("WS1"),
    dependencies := [{ task_id := "TASK1", lag := 0 }],
    successors := [],
    owner := none,
    start_date := none,
    end_date := none,
    late_start := none,
    late_finish := none,
    actual_start := none,
    actual_finish := none,
    progress := 0,
    status := SE.TaskStatus.not_started,
    status_note := "",
    milestone := false,
    constraint := none,
    is_critical := false,
    float_days := 0,
    phase_id := some ("PHASE1"),
    workstream_id := some ("WS1"),
    baseline := none })]

def c3M2 : TaskMap :=
[("PHASE1",
  { id := "PHASE1",
    name := "Phase 1",
    duration := 0,
    level := 1,
    parent_id := none,
    dependencies := [],
    successors := [],
    owner := none,
    start_date := none,
    end_date := none,
    late_start := none,
    late_finish := none,
    actual_start := none,
    actual_finish := none,
    progress := 0,
    status := SE.TaskStatus.not_started,
    status_note := "",
    milestone := false,
    constraint := none,
    is_critical := false,
    float_days := 0,
    phase_id := none,
    workstream_id := none,
    baseline := none }),
 ("WS1",
  { id := "WS1",
    name := "Workstream 1",
    duration := 0,
    level := 2,
    parent_id := some ("PHASE1"),
    dependencies := [],
    successors := [],
    owner := none,
    start_date := none,
    end_date := none,
    late_start := none,
    late_finish := none,
    actual_start := none,
    actual_finish := none,
    progress := 0,
    status := SE.TaskStatus.not_started,
    status_note := "",
    milestone := false,
    constraint := none,
    is_critical := false,
    float_days := 0,
    phase_id := some ("PHASE1"),
    workstream_id := none,
    baseline := none }),
 ("TASK1",
  { id := "TASK1",
    name := "Task 1",
    duration := 1,
    level := 3,
    parent_id := some ("WS1"),
    dependencies := [],
    successors := ["TASK2"],
    owner := none,
    start_date := some 345600000,
    end_date := some 432000000,
    late_start := none,
    late_finish := none,
    actual_start := none,
    actual_finish := none,
    progress := 0,
    status := SE.TaskStatus.not_started,
    status_note := "",
    milestone := false,
    constraint := none,
    is_critical := false,
    float_days := 0,
    phase_id := some ("PHASE1"),
    workstream_id := some ("WS1"),
    baseline := none }),
 ("TASK2",
  { id := "TASK2",
    name := "Task 2",
    duration := 1,
    level := 3,
    parent_id := some ("WS1"),
    dependencies := [{ task_id := "TASK1", lag := 0 }],
    successors := [],
    owner := none,
    start_date := some 432000000,
    end_date := some 518400000,
    late_start := none,
    late_finish := none,
    actual_start := none,
    actual_finish := none,
    progress := 0,
    status := SE.TaskStatus.not_started,
    status_note := "",
    milestone := false,
    constraint := none,
    is_critical := false,
    float_days := 0,
    phase_id := some ("PHASE1"),
    workstream_id := some ("WS1"),
    baseline := none })]

def c3M3 : TaskMap :=
[("PHASE1",
  { id := "PHASE1",
    name := "Phase 1",
    duration := 2,
    level := 1,
    parent_id := none,
    dependencies := [],
    successors := [],
    owner := none,
    start_date := some 345600000,
    end_date := some 518400000,
    late_start := none,
    late_finish := none,
    actual_start := none,
    actual_finish := none,
    progress := 0,
    status := SE.TaskStatus.not_started,
    status_note := "",
    milestone := false,
    constraint := none,
    is_critical := false,
    float_days := 0,
    phase_id := none,
    workstream_id := none,
    baseline := none }),
 ("WS1",
  { id := "WS1",
    name := "Workstream 1",
    duration := 2,
    level := 2,
    parent_id := some ("PHASE1"),
    dependencies := [],
    successors := [],
    owner := none,
    start_date := some 345600000,
    end_date := some 518400000,
    late_start := none,
    late_finish := none,
    actual_start := none,
    actual_finish := none,
    progress := 0,
    status := SE.TaskStatus.not_started,
    status_note := "",
    milestone := false,
    constraint := none,
    is_critical := false,
    float_days := 0,
    phase_id := some ("PHASE1"),
    workstream_id := none,
    baseline := none }),
 ("TASK1",
  { id := "TASK1",
    name := "Task 1",
    duration := 1,
    level := 3,
    parent_id := some ("WS1"),
    dependencies := [],
    successors := ["TASK2"],
    owner := none,
    start_date := some 345600000,
    end_date := some 432000000,
    late_start := none,
    late_finish := none,
    actual_start := none,
    actual_finish := none,
    progress := 0,
    status := SE.TaskStatus.not_started,
    status_note := "",
    milestone := false,
    constraint := none,
    is_critical := false,
    float_days := 0,
    phase_id := some ("PHASE1"),
    workstream_id := some ("WS1"),
    baseline := none }),
 ("TASK2",
  { id := "TASK2",
    name := "Task 2",
    duration := 1,
    level := 3,
    parent_id := some ("WS1"),
    dependencies := [{ task_id := "TASK1", lag := 0 }],
    successors := [],
    owner := none,
    start_date := some 432000000,
    end_date := some 518400000,
    late_start := none,
    late_finish := none,
    actual_start := none,
    actual_finish := none,
    progress := 0,
    status := SE.TaskStatus.not_started,
    status_note := "",
    milestone := false,
    constraint := none,
    is_critical := false,
    float_days := 0,
    phase_id := some ("PHASE1"),
    workstream_id := some ("WS1"),
    baseline := none })]

def c3M4 : TaskMap :=
[("PHASE1",
  { id := "PHASE1",
    name := "Phase 1",
    duration := 2,
    level := 1,
    parent_id := none,
    dependencies := [],
    successors := [],
    owner := none,
    start_date := some 345600000,
    end_date := some 518400000,
    late_start := none,
    late_finish := none,
    actual_start := none,
    actual_finish := none,
    progress := 0,
    status := SE.TaskStatus.not_started,
    status_note := "",
    milestone := false,
    constraint := none,
    is_critical := false,
    float_days := 0,
    phase_id := none,
    workstream_id := none,
    baseline := none }),
 ("WS1",
  { id := "WS1",
    name := "Workstream 1",
    duration := 2,
    level := 2,
    parent_id := some ("PHASE1"),
    dependencies := [],
    successors := [],
    owner := none,
    start_date := some 345600000,
    end_date := some 518400000,
    late_start := none,
    late_finish := none,
    actual_start := none,
    actual_finish := none,
    progress := 0,
    status := SE.TaskStatus.not_started,
    status_note := "",
    milestone := false,
    constraint := none,
    is_critical := false,
    float_days := 0,
    phase_id := some ("PHASE1"),
    workstream_id := none,
    baseline := none }),
 ("TASK1",
  { id := "TASK1",
    name := "Task 1",
    duration := 1,
    level := 3,
    parent_id := some ("WS1"),
    dependencies := [],
    successors := ["TASK2"],
    owner := none,
    start_date := some 345600000,
    end_date := some 432000000,
    late_start := some 518400000,
    late_finish := some 518400000,
    actual_start := none,
    actual_finish := none,
    progress := 0,
    status := SE.TaskStatus.not_started,
    status_note := "",
    milestone := false,
    constraint := none,
    is_critical := false,
    float_days := 1,
    phase_id := some ("PHASE1"),
    workstream_id := some ("WS1"),
    baseline := none }),
 ("TASK2",
  { id := "TASK2",
    name := "Task 2",
    duration := 1,
    level := 3,
    parent_id := some ("WS1"),
    dependencies := [{ task_id := "TASK1", lag := 0 }],
    successors := [],
    owner := none,
    start_date := some 432000000,
    end_date := some 518400000,
    late_start := some 518400000,
    late_finish := some 518400000,
    actual_start := none,
    actual_finish := none,
    progress := 0,
    status := SE.TaskStatus.not_started,
    status_note := "",
    milestone := false,
    constraint := none,
    is_critical := true,
    float_days := 0,
    phase_id := some ("PHASE1"),
    workstream_id := some ("WS1"),
    baseline := none })]

def c3Schedule : Schedule :=
  { tasks := c3M4
    phases := ["PHASE1"]
    workstreams := ["WS1"]
    calendar := defaultCalendar
    project_start := 4 * msPerDay }

theorem c3_stage_build : buildTasks c3ChainSpec = (c3M0, ["PHASE1"], ["WS1"]) := by
  decide

theorem c3_stage_validate : validate c3M0 50 = Except.ok () := by
  decide

theorem c3_stage_successors : buildSuccessors c3M0 = c3M1 := by
  decide

set_option maxHeartbeats 1000000 in
theorem c3_stage_forward :
    calculateDates defaultCalendar (4 * msPerDay) 0 100 50 c3M1 = Except.ok c3M2 := by
  decide

set_option maxHeartbeats 1000000 in
theorem c3_stage_rollup :
    rollupSummaries defaultCalendar c3M2 ["WS1"] ["PHASE1"] = c3M3 := by
  decide

set_option maxHeartbeats 1000000 in
theorem c3_stage_late :
    calculateCriticalPath defaultCalendar 100 50 c3M3 = Except.ok c3M4 := by
  decide

/-- `load` on the two-task chain, assembled from the stage evaluations. -/
theorem load_c3ChainSpec_eval :
    load c3ChainSpec 50 100 0 = Except.ok c3Schedule := by
  have hc : c3ChainSpec.calendar = defaultCalendar := rfl
  have hs : c3ChainSpec.start_date = 4 * msPerDay := rfl
  simp only [load, c3_stage_build, hc, hs, c3_stage_validate, c3_stage_successors,
    c3_stage_forward, c3_stage_rollup, c3_stage_late, c3Schedule]

/-- C3: in the two-task chain `TASK1 → TASK2`, the code marks `TASK2`
critical but computes `float_days = 1` (the duration of `TASK2`) for
`TASK1` and leaves it non-critical.  Because `addWorkingDays` ignores
negative counts, `TASK2`'s late start equals its late finish instead of
`late finish − duration`, so `TASK1`'s late finish never moves back from
the project end. -/
theorem c3_chain_first_task_not_critical :
    (match load c3ChainSpec 50 100 0 with
     | Except.ok s =>
       some ((mapGet s.tasks ("TASK1")).map (fun (t : Task) => (t.is_critical, t.float_days)),
             (mapGet s.tasks ("TASK2")).map (fun (t : Task) => (t.is_critical, t.float_days)))
     | Except.error _ => none) = some (some (false, 1), some (true, 0)) := by
  rw [load_c3ChainSpec_eval]
  decide

theorem foldl_add_eq (f : Task → Int) :
    ∀ (l : List Task) (a : Int), l.foldl (fun s t => s + f t) a = a + (l.map f).sum := by
  intro l
  induction l with
  | nil => intro a; simp
  | cons x xs ih =>
    intro a
    simp only [List.foldl, List.map, List.sum_cons]
    rw [ih (a + f x)]
    ring

theorem sum_map_filter_dur (f : Task → Int) (hf : ∀ t : Task, t.duration = 0 → f t = 0) :
    ∀ l : List Task,
      ((l.filter (fun t => t.duration != 0)).map f).sum = (l.map f).sum := by
  intro l
  induction l with
  | nil => simp
  | cons t ts ih =>
    by_cases h : t.duration = 0
    · have hp : (t.duration != 0) = false := by simp [h]
      simp only [List.filter, hp, List.map, List.sum_cons, ih, hf t h]
      omega
    · have hp : (t.duration != 0) = true := by simp [h]
      simp only [List.filter, hp, List.map, List.sum_cons, ih]

/-- A workstream map as it stands right after the forward pass: `WS1` with
two level-3 children of durations 5 and 10, progress 100 and 60, dates
already computed (Monday 1970-01-05 starts). -/
def c7PostForward : TaskMap :=
  [("WS1",
    { id := "WS1", name := "Workstream 1", duration := 0, level := 2,
      parent_id := some ("PHASE1"), phase_id := some ("PHASE1") }),
   ("TA",
    { id := "TA", name := "A", duration := 5, level := 3,
      parent_id := some ("WS1"), phase_id := some ("PHASE1"),
      workstream_id := some ("WS1"), progress := 100,
      start_date := some (4 * msPerDay), end_date := some (11 * msPerDay) }),
   ("TB",
    { id := "TB", name := "B", duration := 10, level := 3,
      parent_id := some ("WS1"), phase_id := some ("PHASE1"),
      workstream_id := some ("WS1"), progress := 60,
      start_date := some (4 * msPerDay), end_date := some (18 * msPerDay) })]

/-- C7: a summary's rolled-up progress with positive total child duration is
exactly `round(Σ progress·duration / Σ duration)` (round half up, the
source's `Math.round`); children of duration 0 contribute nothing
(filtering them out changes nothing); and the concrete workstream with
durations 5, 10 and progress 100, 60 rolls up to
`round((5·100 + 10·60)/15) = 73` through `rollupWorkstream`. -/
theorem c7_rollup_progress_weighted_mean :
    (∀ (children : List Task) (current : Int),
        0 < children.foldl (fun sum t => sum + t.duration) 0 →
        rollupProgress children current =
          jsRoundDiv (children.foldl (fun sum t => sum + t.progress * t.duration) 0)
            (children.foldl (fun sum t => sum + t.duration) 0)) ∧
    (∀ (children : List Task) (current : Int),
        rollupProgress (children.filter (fun t => t.duration != 0)) current =
          rollupProgress children current) ∧
    ((mapGet (rollupWorkstream defaultCalendar c7PostForward ("WS1")) ("WS1")).map
        (fun (t : Task) => t.progress) = some 73) ∧
    jsRoundDiv (5 * 100 + 10 * 60) (5 + 10) = 73 := by
  refine ⟨?_, ?_, by decide, by decide⟩
  · intro children current h
    unfold rollupProgress
    rw [if_pos h]
  · intro children current
    unfold rollupProgress
    rw [foldl_add_eq (fun t => t.duration), foldl_add_eq (fun t => t.duration),
      foldl_add_eq (fun t => t.progress * t.duration),
      foldl_add_eq (fun t => t.progress * t.duration)]
    rw [sum_map_filter_dur (fun t => t.duration) (fun t ht => ht),
      sum_map_filter_dur (fun t => t.progress * t.duration)
        (fun t ht => by show t.progress * t.duration = 0; rw [ht]; ring)]

/-- The children of the rollup example as bare task values, for the
witness. -/
def c7Children : List Task :=
  [{ id := "TA", name := "A", duration := 5, level := 3, progress := 100 },
   { id := "TB", name := "B", duration := 10, level := 3, progress := 60 }]

/-- C7 witness: the weighted-mean equation instantiated on the concrete
children. -/
theorem c7_rollup_progress_weighted_mean_witness :
    (0 < c7Children.foldl (fun sum t => sum + t.duration) 0) ∧
      rollupProgress c7Children 0 =
        jsRoundDiv (c7Children.foldl (fun sum t => sum + t.progress * t.duration) 0)
          (c7Children.foldl (fun sum t => sum + t.duration) 0) ∧
      rollupProgress (c7Children.filter (fun t => t.duration != 0)) 0 =
        rollupProgress c7Children 0 :=
  ⟨by decide, c7_rollup_progress_weighted_mean.1 c7Children 0 (by decide),
    c7_rollup_progress_weighted_mean.2.1 c7Children 0⟩

/-! ### Invariant: summary entries keep their initial criticality fields -/

theorem mapGet_mem : ∀ (m : TaskMap) (k : String) (t : Task),
    mapGet m k = some t → (k, t) ∈ m := by
  intro m
  induction m with
  | nil => intro k t h; simp [mapGet] at h
  | cons p rest ih =>
    intro k t h
    rw [mapGet] at h
    by_cases hk : p.1 == k
    · rw [if_pos hk] at h
      have h1 : p.2 = t := by injection h
      have h2 : p.1 = k := by simpa using hk
      have hp : p = (k, t) := by
        cases p
        simp only at h1 h2
        rw [h1, h2]
      rw [← hp]
      exact List.mem_cons_self p rest
    · rw [if_neg hk] at h
      exact List.mem_cons_of_mem p (ih k t h)

theorem mapGet_mapSet_self : ∀ (m : TaskMap) (k : String) (v : Task),
    mapGet (mapSet m k v) k = some v := by
  intro m
  induction m with
  | nil => intro k v; simp [mapSet, mapGet]
  | cons p rest ih =>
    intro k v
    rw [mapSet]
    by_cases hk : p.1 == k
    · rw [if_pos hk, mapGet, if_pos (by simp)]
    · rw [if_neg hk, mapGet, if_neg hk]
      exact ih k v

theorem mapGet_mapSet_ne : ∀ (m : TaskMap) (k : String) (v : Task) (k' : String),
    k' ≠ k → mapGet (mapSet m k v) k' = mapGet m k' := by
  intro m
  induction m with
  | nil =>
    intro k v k' hne
    rw [mapSet, mapGet, mapGet, if_neg (by simpa using fun h => hne h.symm)]
    rfl
  | cons p rest ih =>
    intro k v k' hne
    rw [mapSet]
    by_cases hk : p.1 == k
    · have hp : p.1 = k := by simpa using hk
      rw [if_pos hk, mapGet, mapGet,
        if_neg (by simpa using fun h => hne h.symm),
        if_neg (by simp [hp]; exact fun h => hne h.symm)]
    · rw [if_neg hk, mapGet, mapGet]
      by_cases hp : p.1 == k'
      · rw [if_pos hp, if_pos hp]
      · rw [if_neg hp, if_neg hp]
        exact ih k v k' hne

theorem mem_mapSet : ∀ (m : TaskMap) (k : String) (v : Task) (p : String × Task),
    p ∈ mapSet m k v → p = (k, v) ∨ p ∈ m := by
  intro m
  induction m with
  | nil =>
    intro k v p hp
    rw [mapSet] at hp
    left
    simpa using hp
  | cons q rest ih =>
    intro k v p hp
    rw [mapSet] at hp
    by_cases hk : q.1 == k
    · rw [if_pos hk] at hp
      rcases List.mem_cons.mp hp with h | h
      · left; exact h
      · right; exact List.mem_cons_of_mem q h
    · rw [if_neg hk] at hp
      rcases List.mem_cons.mp hp with h | h
      · right; rw [h]; exact List.mem_cons_self q rest
      · rcases ih k v p h with h2 | h2
        · left; exact h2
        · right; exact List.mem_cons_of_mem q h2

/-- The invariant of interest for one task: below level 3 the criticality
fields still hold their load-time initial values. -/
def cleanTask (t : Task) : Prop :=
  t.level < 3 → t.is_critical = false ∧ t.float_days = 0

def Clean (m : TaskMap) : Prop := ∀ p ∈ m, cleanTask p.2

/-- Executable form of the invariant over a whole task map. -/
def summariesClean (m : TaskMap) : Bool :=
  m.all (fun p => decide (3 ≤ p.2.level) || (!p.2.is_critical && p.2.float_days == 0))

theorem summariesClean_iff (m : TaskMap) : summariesClean m = true ↔ Clean m := by
  unfold summariesClean Clean cleanTask
  rw [List.all_eq_true]
  constructor
  · intro h p hp hl
    have h2 := h p hp
    simp only [Bool.or_eq_true, decide_eq_true_eq, Bool.and_eq_true, Bool.not_eq_true',
      beq_iff_eq] at h2
    rcases h2 with h2 | h2
    · omega
    · exact h2
  · intro h p hp
    simp only [Bool.or_eq_true, decide_eq_true_eq, Bool.and_eq_true, Bool.not_eq_true',
      beq_iff_eq]
    by_cases hl : p.2.level < 3
    · right; exact h p hp hl
    · left; omega

theorem clean_nil : Clean [] := by
  intro p hp
  cases hp

theorem clean_mapSet (m : TaskMap) (k : String) (v : Task)
    (hm : Clean m) (hv : cleanTask v) : Clean (mapSet m k v) := by
  intro p hp
  rcases mem_mapSet m k v p hp with h | h
  · rw [h]; exact hv
  · exact hm p h

theorem clean_get (m : TaskMap) (k : String) (t : Task)
    (hm : Clean m) (h : mapGet m k = some t) : cleanTask t :=
  hm (k, t) (mapGet_mem m k t h)

theorem foldl_preserve {α β : Type} (P : β → Prop) (f : β → α → β)
    (h : ∀ b a, P b → P (f b a)) : ∀ (l : List α) (b : β), P b → P (l.foldl f b) := by
  intro l
  induction l with
  | nil => intro b hb; exact hb
  | cons x xs ih =>
    intro b hb
    rw [List.foldl_cons]
    exact ih (f b x) (h b x hb)

theorem clean_parseTask (td : RawTask) (p w : String) (b : List (String × Baseline)) :
    cleanTask (parseTask td p w b) :=
  fun _ => ⟨rfl, rfl⟩

theorem clean_phaseTask (phase : RawPhase) : cleanTask (phaseTask phase) :=
  fun _ => ⟨rfl, rfl⟩

theorem clean_wsTask (phase : RawPhase) (ws : RawWorkstream) :
    cleanTask (wsTask phase ws) :=
  fun _ => ⟨rfl, rfl⟩

theorem clean_buildTasks (spec : RawSpec) : Clean (buildTasks spec).1 := by
  unfold buildTasks
  apply foldl_preserve (fun (acc : TaskMap × List String × List String) => Clean acc.1)
  · intro acc phase hacc
    dsimp only
    apply foldl_preserve (fun (acc2 : TaskMap × List String × List String) => Clean acc2.1)
    · intro acc2 ws hacc2
      dsimp only
      apply foldl_preserve Clean
      · intro mm td hmm
        exact clean_mapSet _ _ _ hmm (clean_parseTask td phase.id ws.id spec.baseline)
      · exact clean_mapSet _ _ _ hacc2 (clean_wsTask phase ws)
    · exact clean_mapSet _ _ _ hacc (clean_phaseTask phase)
  · exact clean_nil

theorem clean_clearSuccessors (m : TaskMap) (hm : Clean m) :
    Clean (clearSuccessors m) := by
  intro p hp
  unfold clearSuccessors at hp
  rcases List.mem_map.mp hp with ⟨q, hq, rfl⟩
  exact hm q hq

theorem clean_pushSuccessor (m : TaskMap) (predId succId : String)
    (hm : Clean m) : Clean (pushSuccessor m predId succId) := by
  unfold pushSuccessor
  cases h : mapGet m predId with
  | none => exact hm
  | some t => exact clean_mapSet _ _ _ hm (clean_get m predId t hm h)

theorem clean_buildSuccessors (m : TaskMap) (hm : Clean m) :
    Clean (buildSuccessors m) := by
  unfold buildSuccessors
  apply foldl_preserve Clean
  · intro b t hb
    dsimp only
    apply foldl_preserve Clean
    · intro b2 d hb2
      exact clean_pushSuccessor b2 d.task_id t.id hb2
    · exact hb
  · exact clean_clearSuccessors m hm

theorem clean_forwardFinish (cal : Calendar) (ps today : Int) (awdFuel : Nat)
    (m : TaskMap) (taskId : String) (m' : TaskMap) (hm : Clean m)
    (h : forwardFinish cal ps today awdFuel m taskId = Except.ok m') : Clean m' := by
  unfold forwardFinish at h
  split at h
  · injection h with h2
    rw [← h2]
    exact hm
  · split at h
    · exact absurd h (by simp)
    · injection h with h2
      rw [← h2]
      rename_i x1 task hget x2 p hfd
      exact clean_mapSet _ _ _ hm (clean_get m taskId task hm hget)

theorem clean_calcMany (cal : Calendar) (ps today : Int) (awdFuel : Nat) :
    ∀ (fuel : Nat) (ids : List String) (m : TaskMap) (visited : List String)
      (res : TaskMap × List String), Clean m →
      calcMany cal ps today awdFuel fuel ids m visited = Except.ok res →
      Clean res.1 := by
  intro fuel
  induction fuel with
  | zero =>
    intro ids m v res hm h
    rw [calcMany] at h
    exact absurd h (by simp)
  | succ f ih =>
    intro ids m v res hm h
    cases ids with
    | nil =>
      rw [calcMany] at h
      injection h with h2
      rw [← h2]
      exact hm
    | cons taskId rest =>
      rw [calcMany] at h
      split at h
      · exact ih rest m v res hm h
      · split at h
        · exact ih rest m v res hm h
        · rename_i task hget
          split at h
          · exact ih rest m _ res hm h
          · split at h
            · -- settled by actuals
              split at h
              · refine ih rest _ _ res ?_ h
                exact clean_mapSet _ _ _ hm (clean_get m taskId task hm hget)
              · split at h
                · exact absurd h (by simp)
                · refine ih rest _ _ res ?_ h
                  exact clean_mapSet _ _ _ hm (clean_get m taskId task hm hget)
            · -- dependencies first, then forwardFinish
              split at h
              · exact absurd h (by simp)
              · rename_i m2 v2 hrec
                split at h
                · exact absurd h (by simp)
                · rename_i m3 hff
                  have hm2 : Clean m2 :=
                    ih (task.dependencies.map (fun d => d.task_id)) m v (m2, v2) hm hrec
                  have hm3 : Clean m3 :=
                    clean_forwardFinish cal ps today awdFuel m2 taskId m3 hm2 hff
                  exact ih rest m3 _ res hm3 h

theorem clean_rollupWorkstream (cal : Calendar) (m : TaskMap) (wsId : String)
    (hm : Clean m) : Clean (rollupWorkstream cal m wsId) := by
  unfold rollupWorkstream
  split
  · exact hm
  · rename_i ws hget
    dsimp only
    split
    · exact hm
    · refine clean_mapSet _ _ _ hm ?_
      exact clean_get m wsId ws hm hget

theorem clean_rollupPhase (cal : Calendar) (m : TaskMap) (phaseId : String)
    (hm : Clean m) : Clean (rollupPhase cal m phaseId) := by
  unfold rollupPhase
  split
  · exact hm
  · rename_i phase hget
    dsimp only
    split
    · exact hm
    · refine clean_mapSet _ _ _ hm ?_
      exact clean_get m phaseId phase hm hget

theorem clean_rollupSummaries (cal : Calendar) (m : TaskMap)
    (workstreams phases : List String) (hm : Clean m) :
    Clean (rollupSummaries cal m workstreams phases) := by
  unfold rollupSummaries
  apply foldl_preserve Clean
  · intro b a hb
    exact clean_rollupPhase cal b a hb
  · apply foldl_preserve Clean
    · intro b a hb
      exact clean_rollupWorkstream cal b a hb
    · exact hm

/-- Levels of the entries are untouched by a pipeline stage. -/
def sameLevels (m m' : TaskMap) : Prop :=
  ∀ k, (mapGet m' k).map (fun t => t.level) = (mapGet m k).map (fun t => t.level)

theorem sameLevels_refl (m : TaskMap) : sameLevels m m := fun _ => rfl

theorem sameLevels_trans {m1 m2 m3 : TaskMap}
    (h1 : sameLevels m1 m2) (h2 : sameLevels m2 m3) : sameLevels m1 m3 :=
  fun k => (h2 k).trans (h1 k)

theorem sameLevels_mapSet (m : TaskMap) (k : String) (t v : Task)
    (hget : mapGet m k = some t) (hlv : v.level = t.level) :
    sameLevels m (mapSet m k v) := by
  intro k'
  by_cases hk : k' = k
  · rw [hk, mapGet_mapSet_self, hget]
    simp [hlv]
  · rw [mapGet_mapSet_ne m k v k' hk]

theorem lateUpdate_level (cal : Calendar) (task : Task) (lf ls : Int) :
    (lateUpdate cal task lf ls).level = task.level := by
  unfold lateUpdate
  cases task.end_date <;> rfl

theorem clean_calcLateMany (cal : Calendar) (pe : Int) (awdFuel : Nat) :
    ∀ (fuel : Nat) (ids : List String) (m : TaskMap) (visited : List String)
      (res : TaskMap × List String), Clean m →
      calcLateMany cal pe awdFuel fuel ids m visited = Except.ok res →
      Clean res.1 ∧ sameLevels m res.1 := by
  intro fuel
  induction fuel with
  | zero =>
    intro ids m v res hm h
    rw [calcLateMany] at h
    exact absurd h (by simp)
  | succ f ih =>
    intro ids m v res hm h
    cases ids with
    | nil =>
      rw [calcLateMany] at h
      injection h with h2
      rw [← h2]
      exact ⟨hm, sameLevels_refl m⟩
    | cons taskId rest =>
      rw [calcLateMany] at h
      split at h
      · exact ih rest m v res hm h
      · split at h
        · exact ih rest m _ res hm h
        · rename_i task hget
          split at h
          · exact ih rest m _ res hm h
          · rename_i hlev
            split at h
            · exact absurd h (by simp)
            · rename_i m2 v2 hrec
              obtain ⟨hm2, hsl2⟩ := ih task.successors m v (m2, v2) hm hrec
              split at h
              · obtain ⟨hcr, hsr⟩ := ih rest m2 _ res hm2 h
                exact ⟨hcr, sameLevels_trans hsl2 hsr⟩
              · rename_i task2 hget2
                have hlv2 : task2.level = task.level := by
                  have hx := hsl2 taskId
                  rw [hget, hget2] at hx
                  simpa using hx
                split at h
                · exact absurd h (by simp)
                · rename_i lateFinish hlf
                  split at h
                  · exact absurd h (by simp)
                  · rename_i lateStart hls
                    have hct : cleanTask (lateUpdate cal task2 lateFinish lateStart) := by
                      intro hl
                      rw [lateUpdate_level, hlv2] at hl
                      exact absurd hl hlev
                    have hcl : Clean (mapSet m2 taskId (lateUpdate cal task2 lateFinish lateStart)) :=
                      clean_mapSet m2 taskId _ hm2 hct
                    have hsl3 : sameLevels m2
                        (mapSet m2 taskId (lateUpdate cal task2 lateFinish lateStart)) :=
                      sameLevels_mapSet m2 taskId task2 _ hget2
                        (lateUpdate_level cal task2 lateFinish lateStart)
                    obtain ⟨hcr, hsr⟩ := ih rest _ _ res hcl h
                    exact ⟨hcr, sameLevels_trans (sameLevels_trans hsl2 hsl3) hsr⟩

theorem clean_calculateDates (cal : Calendar) (ps today : Int) (awdFuel fuel : Nat)
    (m m' : TaskMap) (hm : Clean m)
    (h : calculateDates cal ps today awdFuel fuel m = Except.ok m') : Clean m' := by
  unfold calculateDates at h
  split at h
  · exact absurd h (by simp)
  · rename_i p hp
    injection h with h2
    rw [← h2]
    exact clean_calcMany cal ps today awdFuel fuel (mapKeys m) m [] p hm hp

theorem clean_calculateCriticalPath (cal : Calendar) (awdFuel fuel : Nat)
    (m m' : TaskMap) (hm : Clean m)
    (h : calculateCriticalPath cal awdFuel fuel m = Except.ok m') : Clean m' := by
  unfold calculateCriticalPath at h
  dsimp only at h
  split at h
  · injection h with h2
    rw [← h2]
    exact hm
  · split at h
    · exact absurd h (by simp)
    · rename_i p hp
      injection h with h2
      rw [← h2]
      exact (clean_calcLateMany cal _ awdFuel fuel (mapKeys m) m [] p hm hp).1

/-- C10: after any successful load, every level-1 (phase) and level-2
(workstream) summary entry still carries `is_critical = false` and
`float_days = 0`: both CPM passes skip entries below level 3 and the rollup
never writes those two fields. -/
theorem c10_summary_tasks_never_critical (spec : RawSpec) (fuel awdFuel : Nat)
    (today : Int) (s : Schedule)
    (h : load spec fuel awdFuel today = Except.ok s) :
    summariesClean s.tasks = true ∧
      ∀ (k : String) (t : Task), mapGet s.tasks k = some t → t.level < 3 →
        t.is_critical = false ∧ t.float_days = 0 := by
  have hclean : Clean s.tasks := by
    unfold load at h
    dsimp only at h
    split at h
    · exact absurd h (by simp)
    · split at h
      · exact absurd h (by simp)
      · rename_i m2 hforward
        split at h
        · exact absurd h (by simp)
        · rename_i m4 hlate
          injection h with h2
          have hm0 : Clean (buildTasks spec).1 := clean_buildTasks spec
          have hm1 : Clean (buildSuccessors (buildTasks spec).1) :=
            clean_buildSuccessors _ hm0
          have hm2 : Clean m2 :=
            clean_calculateDates spec.calendar spec.start_date today awdFuel fuel _ m2
              hm1 hforward
          have hm3 : Clean (rollupSummaries spec.calendar m2
              (buildTasks spec).2.2 (buildTasks spec).2.1) :=
            clean_rollupSummaries spec.calendar m2 _ _ hm2
          have hm4 : Clean m4 :=
            clean_calculateCriticalPath spec.calendar awdFuel fuel _ m4 hm3 hlate
          rw [← h2]
          exact hm4
  refine ⟨(summariesClean_iff s.tasks).mpr hclean, ?_⟩
  intro k t hk hl
  exact clean_get s.tasks k t hclean hk hl

/-- C10 witness: the two-task chain loads and its summary entries are
clean. -/
theorem c10_summary_tasks_never_critical_witness :
    load c3ChainSpec 50 100 0 = Except.ok c3Schedule ∧
      summariesClean c3Schedule.tasks = true :=
  ⟨load_c3ChainSpec_eval,
    (c10_summary_tasks_never_critical c3ChainSpec 50 100 0 c3Schedule
      load_c3ChainSpec_eval).1⟩

end SE

/-! ## Natural-language schedule editor (`nl-parser` module)

`ScheduleEditor` parses the raw YAML into nested plain objects and works on
them directly.  The model represents each phase / workstream / task object
as an association list of dynamically-typed fields (`task[field] = value`
is an arbitrary property write), with the phase's workstream list and the
workstream's task list held alongside.  `yaml.load`/`yaml.dump`, the regex
engine and the Fuse.js fuzzy matcher are external libraries: regex match
results and fuzzy search results enter the model as oracle inputs. -/

namespace NL

/-- A dynamically-typed YAML value. -/
inductive Value where
  | vstr (s : String)
  | vint (n : Int)
  | vbool (b : Bool)
  | vnull
  | vlist (items : List Value)
  | vobj (fields : List (String × Value))

/-- Property read on a plain object. -/
def assocGet (fields : List (String × Value)) (name : String) : Option Value :=
  match fields with
  | [] => none
  | p :: rest => if p.1 == name then some p.2 else assocGet rest name

/-- Property write on a plain object (`task[field] = value`): overwrite the
existing field or add a new one. -/
def assocSet (fields : List (String × Value)) (name : String) (v : Value) :
    List (String × Value) :=
  match fields with
  | [] => [(name, v)]
  | p :: rest => if p.1 == name then (name, v) :: rest else p :: assocSet rest name v

/-- `node.id === taskId` on a plain object: a string-typed `id` field equal
to the probe (any other shape compares unequal under `===`). -/
def idMatches (fields : List (String × Value)) (taskId : String) : Bool :=
  match assocGet fields ("id") with
  | some (Value.vstr s) => s == taskId
  | _ => false

structure TaskNode where
  fields : List (String × Value)

structure WsNode where
  fields : List (String × Value)
  tasks : List TaskNode

structure PhaseNode where
  fields : List (String × Value)
  workstreams : List WsNode

/-- The parsed YAML document held by `ScheduleEditor` (`this.data.phases`). -/
abbrev EditorData := List PhaseNode

/-- Inner loop of `findTaskDataInYAML` over one workstream's tasks. -/
def findInTasks (tasks : List TaskNode) (taskId : String) :
    Option (List (String × Value)) :=
  match tasks with
  | [] => none
  | t :: rest => if idMatches t.fields taskId then some t.fields else findInTasks rest taskId

/-- Middle loop of `findTaskDataInYAML`: each workstream's own id, then its
tasks. -/
def findInWss (wss : List WsNode) (taskId : String) :
    Option (List (String × Value)) :=
  match wss with
  | [] => none
  | w :: rest =>
    if idMatches w.fields taskId then some w.fields
    else
      match findInTasks w.tasks taskId with
      | some f => some f
      | none => findInWss rest taskId

/-- `ScheduleEditor.findTaskDataInYAML`: first phase / workstream / task
object whose `id` equals the probe, in document order. -/
def findTaskDataInYAML (data : EditorData) (taskId : String) :
    Option (List (String × Value)) :=
  match data with
  | [] => none
  | p :: rest =>
    if idMatches p.fields taskId then some p.fields
    else
      match findInWss p.workstreams taskId with
      | some f => some f
      | none => findTaskDataInYAML rest taskId

/-- `ScheduleEditor.findTaskInYAML`: the boolean form of the same walk. -/
def findTaskInYAML (data : EditorData) (taskId : String) : Bool :=
  (findTaskDataInYAML data taskId).isSome

/-- Write `field := v` into the first node whose id matches, mirroring the
traversal of `findTaskDataInYAML`; `none` when no node matches. -/
def setInTasks (tasks : List TaskNode) (taskId field : String) (v : Value) :
    Option (List TaskNode) :=
  match tasks with
  | [] => none
  | t :: rest =>
    if idMatches t.fields taskId then some ({ fields := assocSet t.fields field v } :: rest)
    else
      match setInTasks rest taskId field v with
      | some rest2 => some (t :: rest2)
      | none => none

def setInWss (wss : List WsNode) (taskId field : String) (v : Value) :
    Option (List WsNode) :=
  match wss with
  | [] => none
  | w :: rest =>
    if idMatches w.fields taskId then
      some ({ w with fields := assocSet w.fields field v } :: rest)
    else
      match setInTasks w.tasks taskId field v with
      | some ts2 => some ({ w with tasks := ts2 } :: rest)
      | none =>
        match setInWss rest taskId field v with
        | some rest2 => some (w :: rest2)
        | none => none

def setTaskField (data : EditorData) (taskId field : String) (v : Value) :
    Option EditorData :=
  match data with
  | [] => none
  | p :: rest =>
    if idMatches p.fields taskId then
      some ({ p with fields := assocSet p.fields field v } :: rest)
    else
      match setInWss p.workstreams taskId field v with
      | some ws2 => some ({ p with workstreams := ws2 } :: rest)
      | none =>
        match setTaskField rest taskId field v with
        | some rest2 => some (p :: rest2)
        | none => none

structure Diff where
  description : String := ""
  task_id : String
  field : String
  old_value : Value := Value.vnull
  new_value : Value
  impact : Option String := none

/-- One iteration of `applyDiff`'s loop: look the raw node up by id, write
the field if it was found, silently keep the document unchanged if not. -/
def applyDiffStep (data : EditorData) (diff : Diff) : EditorData :=
  match setTaskField data diff.task_id diff.field diff.new_value with
  | some d2 => d2
  | none => data

/-- `ScheduleEditor.applyDiff`: all diffs in order on the in-memory raw
document (the re-serialization `yaml.dump` of the result is external). -/
def applyDiff (data : EditorData) (diffs : List Diff) : EditorData :=
  diffs.foldl applyDiffStep data

/-! ### Diff application (claim C8) -/

theorem assocGet_assocSet_self (fields : List (String × Value)) (f : String) (v : Value) :
    assocGet (assocSet fields f v) f = some v := by
  induction fields with
  | nil => simp [assocSet, assocGet]
  | cons p rest ih =>
    rw [assocSet]
    by_cases hp : p.1 == f
    · rw [if_pos hp, assocGet, if_pos (by simp)]
    · rw [if_neg hp, assocGet, if_neg hp]
      exact ih

theorem assocGet_assocSet_ne (fields : List (String × Value)) (f : String) (v : Value)
    (g : String) (hne : f ≠ g) : assocGet (assocSet fields f v) g = assocGet fields g := by
  induction fields with
  | nil =>
    rw [assocSet, assocGet, assocGet, if_neg (by simpa using hne)]
    rfl
  | cons p rest ih =>
    rw [assocSet]
    by_cases hp : p.1 == f
    · have hp1 : p.1 = f := by simpa using hp
      rw [if_pos hp, assocGet, assocGet, if_neg (by simpa using hne), if_neg (by
        rw [hp1]
        simpa using hne)]
    · rw [if_neg hp, assocGet, assocGet]
      by_cases hg : p.1 == g
      · rw [if_pos hg, if_pos hg]
      · rw [if_neg hg, if_neg hg]
        exact ih

theorem idMatches_assocSet (fields : List (String × Value)) (f : String) (v : Value)
    (taskId : String) (hne : f ≠ "id") :
    idMatches (assocSet fields f v) taskId = idMatches fields taskId := by
  unfold idMatches
  rw [assocGet_assocSet_ne fields f v ("id") hne]

theorem setInTasks_of_find_none (tasks : List TaskNode) (taskId field : String) (v : Value)
    (h : findInTasks tasks taskId = none) : setInTasks tasks taskId field v = none := by
  induction tasks with
  | nil => rw [setInTasks]
  | cons t rest ih =>
    rw [findInTasks] at h
    rw [setInTasks]
    by_cases hm : idMatches t.fields taskId
    · rw [if_pos hm] at h
      exact absurd h (by simp)
    · rw [if_neg hm] at h
      rw [if_neg hm, ih h]

theorem setInTasks_of_find_some (tasks : List TaskNode) (taskId field : String) (v : Value)
    (fields : List (String × Value)) (hne : field ≠ "id")
    (h : findInTasks tasks taskId = some fields) :
    ∃ ts2, setInTasks tasks taskId field v = some ts2 ∧
      findInTasks ts2 taskId = some (assocSet fields field v) := by
  induction tasks with
  | nil => rw [findInTasks] at h; exact absurd h (by simp)
  | cons t rest ih =>
    rw [findInTasks] at h
    by_cases hm : idMatches t.fields taskId
    · rw [if_pos hm] at h
      injection h with h
      rw [setInTasks, if_pos hm]
      refine ⟨_, rfl, ?_⟩
      rw [findInTasks]
      rw [show ({ fields := assocSet t.fields field v } : TaskNode).fields
          = assocSet t.fields field v from rfl]
      rw [idMatches_assocSet t.fields field v taskId hne, if_pos hm, h]
    · rw [if_neg hm] at h
      obtain ⟨rest2, hset, hfind⟩ := ih h
      rw [setInTasks, if_neg hm, hset]
      refine ⟨t :: rest2, rfl, ?_⟩
      rw [findInTasks, if_neg hm]
      exact hfind

theorem setInWss_of_find_none (wss : List WsNode) (taskId field : String) (v : Value)
    (h : findInWss wss taskId = none) : setInWss wss taskId field v = none := by
  induction wss with
  | nil => rw [setInWss]
  | cons w rest ih =>
    rw [findInWss] at h
    rw [setInWss]
    by_cases hm : idMatches w.fields taskId
    · rw [if_pos hm] at h
      exact absurd h (by simp)
    · rw [if_neg hm] at h
      rw [if_neg hm]
      cases ht : findInTasks w.tasks taskId with
      | some f => rw [ht] at h; exact absurd h (by simp)
      | none =>
        rw [ht] at h
        rw [setInTasks_of_find_none w.tasks taskId field v ht, ih h]

theorem setInWss_of_find_some (wss : List WsNode) (taskId field : String) (v : Value)
    (fields : List (String × Value)) (hne : field ≠ "id")
    (h : findInWss wss taskId = some fields) :
    ∃ ws2, setInWss wss taskId field v = some ws2 ∧
      findInWss ws2 taskId = some (assocSet fields field v) := by
  induction wss with
  | nil => rw [findInWss] at h; exact absurd h (by simp)
  | cons w rest ih =>
    rw [findInWss] at h
    by_cases hm : idMatches w.fields taskId
    · rw [if_pos hm] at h
      injection h with h
      rw [setInWss, if_pos hm]
      refine ⟨_, rfl, ?_⟩
      rw [findInWss]
      rw [show ({ w with fields := assocSet w.fields field v } : WsNode).fields
          = assocSet w.fields field v from rfl]
      rw [idMatches_assocSet w.fields field v taskId hne, if_pos hm, h]
    · rw [if_neg hm] at h
      cases ht : findInTasks w.tasks taskId with
      | some f =>
        rw [ht] at h
        injection h with h
        obtain ⟨ts2, hset, hfind⟩ :=
          setInTasks_of_find_some w.tasks taskId field v f hne ht
        rw [setInWss, if_neg hm, hset]
        refine ⟨_, rfl, ?_⟩
        rw [findInWss]
        rw [show ({ w with tasks := ts2 } : WsNode).fields = w.fields from rfl]
        rw [if_neg hm]
        rw [show ({ w with tasks := ts2 } : WsNode).tasks = ts2 from rfl]
        rw [hfind, h]
      | none =>
        rw [ht] at h
        obtain ⟨rest2, hset, hfind⟩ := ih h
        rw [setInWss, if_neg hm, setInTasks_of_find_none w.tasks taskId field v ht, hset]
        refine ⟨w :: rest2, rfl, ?_⟩
        rw [findInWss, if_neg hm, ht]
        exact hfind

theorem setTaskField_of_find_none (data : EditorData) (taskId field : String) (v : Value)
    (h : findTaskDataInYAML data taskId = none) : setTaskField data taskId field v = none := by
  induction data with
  | nil => rw [setTaskField]
  | cons p rest ih =>
    rw [findTaskDataInYAML] at h
    rw [setTaskField]
    by_cases hm : idMatches p.fields taskId
    · rw [if_pos hm] at h
      exact absurd h (by simp)
    · rw [if_neg hm] at h
      rw [if_neg hm]
      cases hw : findInWss p.workstreams taskId with
      | some f => rw [hw] at h; exact absurd h (by simp)
      | none =>
        rw [hw] at h
        rw [setInWss_of_find_none p.workstreams taskId field v hw, ih h]

theorem setTaskField_of_find_some (data : EditorData) (taskId field : String) (v : Value)
    (fields : List (String × Value)) (hne : field ≠ "id")
    (h : findTaskDataInYAML data taskId = some fields) :
    ∃ d2, setTaskField data taskId field v = some d2 ∧
      findTaskDataInYAML d2 taskId = some (assocSet fields field v) := by
  induction data with
  | nil => rw [findTaskDataInYAML] at h; exact absurd h (by simp)
  | cons p rest ih =>
    rw [findTaskDataInYAML] at h
    by_cases hm : idMatches p.fields taskId
    · rw [if_pos hm] at h
      injection h with h
      rw [setTaskField, if_pos hm]
      refine ⟨_, rfl, ?_⟩
      rw [findTaskDataInYAML]
      rw [show ({ p with fields := assocSet p.fields field v } : PhaseNode).fields
          = assocSet p.fields field v from rfl]
      rw [idMatches_assocSet p.fields field v taskId hne, if_pos hm, h]
    · rw [if_neg hm] at h
      cases hw : findInWss p.workstreams taskId with
      | some f =>
        rw [hw] at h
        injection h with h
        obtain ⟨ws2, hset, hfind⟩ :=
          setInWss_of_find_some p.workstreams taskId field v f hne hw
        rw [setTaskField, if_neg hm, hset]
        refine ⟨_, rfl, ?_⟩
        rw [findTaskDataInYAML]
        rw [show ({ p with workstreams := ws2 } : PhaseNode).fields = p.fields from rfl]
        rw [if_neg hm]
        rw [show ({ p with workstreams := ws2 } : PhaseNode).workstreams = ws2 from rfl]
        rw [hfind, h]
      | none =>
        rw [hw] at h
        obtain ⟨rest2, hset, hfind⟩ := ih h
        rw [setTaskField, if_neg hm, setInWss_of_find_none p.workstreams taskId field v hw,
          hset]
        refine ⟨p :: rest2, rfl, ?_⟩
        rw [findTaskDataInYAML, if_neg hm, hw]
        exact hfind

/-- C8: a diff whose `task_id` resolves to no raw node leaves the document
unchanged (no exception surface exists; the lookup-then-write is skipped),
and a diff that does resolve writes exactly `field := new_value` into the
resolved node before re-serialization (for the field names diffs carry,
which never include `id`). -/
theorem c8_applyDiff_missing_is_noop_hit_sets :
    (∀ (data : EditorData) (d : Diff) (ds : List Diff),
        findTaskDataInYAML data d.task_id = none →
        applyDiff data (d :: ds) = applyDiff data ds) ∧
    (∀ (data : EditorData) (d : Diff) (fields : List (String × Value)),
        findTaskDataInYAML data d.task_id = some fields → d.field ≠ "id" →
        findTaskDataInYAML (applyDiffStep data d) d.task_id =
            some (assocSet fields d.field d.new_value) ∧
          assocGet (assocSet fields d.field d.new_value) d.field = some d.new_value) := by
  constructor
  · intro data d ds h
    unfold applyDiff
    rw [List.foldl_cons]
    unfold applyDiffStep
    rw [setTaskField_of_find_none data d.task_id d.field d.new_value h]
  · intro data d fields h hne
    obtain ⟨d2, hset, hfind⟩ :=
      setTaskField_of_find_some data d.task_id d.field d.new_value fields hne h
    constructor
    · unfold applyDiffStep
      rw [hset]
      exact hfind
    · exact assocGet_assocSet_self fields d.field d.new_value

/-- The concrete document of the C8 witness. -/
def c8Data : EditorData :=
  [{ fields := [("id", Value.vstr ("P1")), ("name", Value.vstr ("Phase"))]
     workstreams := [
       { fields := [("id", Value.vstr ("WS1"))]
         tasks := [
           { fields := [("id", Value.vstr ("T1")), ("progress", Value.vint 50)] } ] } ] }]

def c8MissingDiff : Diff :=
  { task_id := "ZZ", field := "progress", new_value := Value.vint 75 }

def c8HitDiff : Diff :=
  { task_id := "T1", field := "progress", new_value := Value.vint 75 }

def c8T1Fields : List (String × Value) :=
  [("id", Value.vstr ("T1")), ("progress", Value.vint 50)]

/-- C8 witness: the missing-id diff is a no-op on the concrete document,
the resolving diff sets `progress` to 75. -/
theorem c8_applyDiff_missing_is_noop_hit_sets_witness :
    applyDiff c8Data [c8MissingDiff] = applyDiff c8Data [] ∧
      findTaskDataInYAML (applyDiffStep c8Data c8HitDiff) ("T1") =
        some (assocSet c8T1Fields ("progress") (Value.vint 75)) ∧
      assocGet (assocSet c8T1Fields ("progress") (Value.vint 75)) ("progress") =
        some (Value.vint 75) :=
  ⟨c8_applyDiff_missing_is_noop_hit_sets.1 c8Data c8MissingDiff [] (by rfl),
    (c8_applyDiff_missing_is_noop_hit_sets.2 c8Data c8HitDiff c8T1Fields (by rfl)
      (by decide)).1,
    (c8_applyDiff_missing_is_noop_hit_sets.2 c8Data c8HitDiff c8T1Fields (by rfl)
      (by decide)).2⟩

/-! ### Natural-language command parsing (claim C6)

`parseCommand` lowercases the command, runs it against every regex pattern
and keeps the highest-confidence interpretation.  The regex engine itself is
a host facility: the per-pattern results of `cleaned.match(pattern)` enter
the model as an oracle list `matches` (in pattern order; `none` = no match;
a match is the JS match array).  Likewise `fuzzyFindTask`'s Fuse.js search
is an oracle `fuse` returning the top hit's id, name and raw Fuse score. -/

/-- `Math.min` on the rationals standing for JS numbers. -/
def jsMin (a b : ℚ) : ℚ := if a ≤ b then a else b

def charsStartsWith : List Char → List Char → Bool
  | [], _ => true
  | _ :: _, [] => false
  | a :: as, b :: bs => a == b && charsStartsWith as bs

def charsContains : List Char → List Char → Bool
  | needle, [] => charsStartsWith needle []
  | needle, c :: rest => charsStartsWith needle (c :: rest) || charsContains needle rest

/-- JS `hay.includes(needle)`. -/
def strContains (hay needle : String) : Bool := charsContains needle.data hay.data

/-- `String.prototype.toUpperCase`, restricted to ASCII (ids and the `\w+`
tokens the parser uppercases are ASCII). -/
def jsUpperChar (c : Char) : Char :=
  if 97 ≤ c.toNat ∧ c.toNat ≤ 122 then Char.ofNat (c.toNat - 32) else c

def jsToUpper (s : String) : String := String.mk (s.data.map jsUpperChar)

def leadingDigits : List Char → List Char
  | [] => []
  | c :: rest => if c.isDigit then c :: leadingDigits rest else []

def digitsToNat : List Char → Nat → Nat
  | [], acc => acc
  | c :: rest, acc => digitsToNat rest (acc * 10 + (c.toNat - 48))

/-- JS `parseInt` on the strings the parser feeds it (captured `\d+` /
digit-leading tokens, no sign or radix prefix); `none` is `NaN`. -/
def jsParseInt (s : String) : Option Int :=
  match leadingDigits s.data with
  | [] => none
  | ds => some (Int.ofNat (digitsToNat ds 0))

/-- JS `a || b` on possibly-undefined strings (`a` unless undefined/empty). -/
def jsOrStr (a b : Option String) : Option String :=
  match a with
  | some s => if s == "" then b else some s
  | none => b

/-- JS `a || d` with a string default. -/
def jsOrDefault (a : Option String) (d : String) : String :=
  match a with
  | some s => if s == "" then d else s
  | none => d

/-- A JS regex match array: entry 0 the full match, entry `i` the `i`-th
capture group (`none` = unmatched optional group; out of range =
`undefined`). -/
abbrev MatchResult := List (Option String)

def matchGet (m : MatchResult) (i : Nat) : Option String := m.getD i none

/-- One entry of `initPatterns()`: `source` is the JS `pattern.toString()`
text (the parser inspects it with `includes`). -/
structure PatternSpec where
  source : String
  intent : String
  base_confidence : ℚ

/-- The 28 command patterns of `initPatterns`, in source order. -/
def nlPatterns : List PatternSpec :=
  [{ source := "/mark\\s+(\\w+)\\s+(?:as\\s+)?complete/i",
     intent := "mark_complete", base_confidence := 98/100 },
   { source := "/(\\w+)\\s+is\\s+(?:done|complete|finished)/i",
     intent := "mark_complete", base_confidence := 95/100 },
   { source := "/complete\\s+(\\w+)/i",
     intent := "mark_complete", base_confidence := 95/100 },
   { source := "/extend\\s+(\\w+)\\s+by\\s+(\\d+)\\s*(?:days?|d)/i",
     intent := "extend_duration", base_confidence := 98/100 },
   { source := "/(\\w+)\\s+needs\\s+(\\d+)\\s+more\\s+days?/i",
     intent := "extend_duration", base_confidence := 90/100 },
   { source := "/add\\s+(\\d+)\\s+days?\\s+to\\s+(\\w+)/i",
     intent := "extend_duration", base_confidence := 95/100 },
   { source := "/shorten\\s+(\\w+)\\s+by\\s+(\\d+)\\s*(?:days?|d)/i",
     intent := "shorten_duration", base_confidence := 98/100 },
   { source := "/reduce\\s+(\\w+)\\s+by\\s+(\\d+)\\s*(?:days?|d)/i",
     intent := "shorten_duration", base_confidence := 98/100 },
   { source := "/set\\s+(\\w+)\\s+(?:to\\s+|duration\\s+)?(\\d+)\\s+(?:days?|d)/i",
     intent := "set_duration", base_confidence := 96/100 },
   { source := "/(\\w+)\\s+duration\\s+(?:is\\s+)?(\\d+)\\s*(?:days?|d)?/i",
     intent := "set_duration", base_confidence := 95/100 },
   { source := "/(?:set\\s+)?(\\w+)\\s+(?:is\\s+|to\\s+)?(\\d+)%/i",
     intent := "set_progress", base_confidence := 95/100 },
   { source := "/(\\w+)\\s+progress\\s+(?:is\\s+)?(\\d+)%?/i",
     intent := "set_progress", base_confidence := 95/100 },
   { source := "/set\\s+(\\w+)\\s+to\\s+(\\d+)(?!\\s*days?)/i",
     intent := "set_progress", base_confidence := 85/100 },
   { source := "/(\\w+)\\s+is\\s+(\\d+)(?!\\s*days?)/i",
     intent := "set_progress", base_confidence := 80/100 },
   { source := "/(\\w+)\\s+started\\s+(\\d{4}-\\d{2}-\\d{2})/i",
     intent := "set_actual_start", base_confidence := 98/100 },
   { source := "/(\\w+)\\s+finished\\s+(\\d{4}-\\d{2}-\\d{2})/i",
     intent := "set_actual_finish", base_confidence := 98/100 },
   { source := "/(\\w+)\\s+starts\\s+(\\d+)\\s+days?\\s+after\\s+(\\w+)/i",
     intent := "add_lag", base_confidence := 95/100 },
   { source := "/(\\w+)\\s+depends\\s+on\\s+(\\w+)/i",
     intent := "add_dependency", base_confidence := 95/100 },
   { source := "/move\\s+(\\w+)\\s+after\\s+(\\w+)/i",
     intent := "add_dependency", base_confidence := 95/100 },
   { source := "/(\\w+)\\s+no\\s+earlier\\s+than\\s+(\\d{4}-\\d{2}-\\d{2})/i",
     intent := "add_constraint", base_confidence := 98/100 },
   { source := "/risk\\s+for\\s+(\\w+)(?::\\s*(.+))?/i",
     intent := "add_risk", base_confidence := 90/100 },
   { source := "/(\\w+)\\s+(?:is\\s+)?at\\s+risk(?::\\s*(.+))?/i",
     intent := "add_risk", base_confidence := 90/100 },
   { source := "/flag\\s+(\\w+)(?:\\s+as\\s+)?at\\s+risk(?::\\s*(.+))?/i",
     intent := "add_risk", base_confidence := 90/100 },
   { source := "/what\\s+if\\s+(\\w+)\\s+slips?\\s+(?:by\\s+)?(\\d+)\\s*(?:days?|d|weeks?)/i",
     intent := "what_if", base_confidence := 1 },
   { source := "/(?:show\\s+)?(?:critical\\s+path|what.*driving.*end)/i",
     intent := "show_critical_path", base_confidence := 1 },
   { source := "/(?:show\\s+)?milestones?/i",
     intent := "show_milestones", base_confidence := 1 },
   { source := "/(?:show\\s+)?variance/i",
     intent := "show_variance", base_confidence := 1 },
   { source := "/status|summary|how\\s+are\\s+we/i",
     intent := "show_status", base_confidence := 1 }]

/-- The special case moving the task-id capture group: `add N days to TASK`
(detected by `pattern.toString().includes(...)` probes on the source). -/
def taskIdGroupIndex (p : PatternSpec) : Nat :=
  if p.intent == "extend_duration" && strContains p.source ("add")
      && strContains p.source ("to") then 2 else 1

/-- `fuzzyFindTask`: Fuse score of the top hit converted to a confidence
`1 - score`, gated at `>= 0.7`.  `fuse` is the oracle for the Fuse.js
search (`none` = no result / undefined score). -/
def fuzzyFindTask (fuse : String → Option (String × String × ℚ)) (query : String) :
    Option (String × String × ℚ) :=
  match fuse query with
  | some r => if 7/10 ≤ 1 - r.2.2 then some (r.1, r.2.1, 1 - r.2.2) else none
  | none => none

/-- Entity resolution inside the pattern loop: the captured token (if
truthy) is uppercased; an exact id hit takes `min(1, confidence + 0.05)`,
otherwise a fuzzy hit rewrites id/name and takes
`min(1, confidence * score)`.  Returns `(task_id, task_name, confidence)`. -/
def resolveEntity (data : EditorData) (fuse : String → Option (String × String × ℚ))
    (p : PatternSpec) (m : MatchResult) : Option String × Option String × ℚ :=
  match matchGet m (taskIdGroupIndex p) with
  | none => (none, none, p.base_confidence)
  | some s =>
    if s == "" then (none, none, p.base_confidence)
    else if findTaskInYAML data (jsToUpper s) then
      (some (jsToUpper s), none, jsMin 1 (p.base_confidence + 5/100))
    else
      match fuzzyFindTask fuse (jsToUpper s) with
      | some r => (some r.1, some r.2.1, jsMin 1 (p.base_confidence * r.2.2))
      | none => (none, none, p.base_confidence)

/-- Per-intent `cmd.value` extraction (`command`, the untrimmed original,
is consulted only by the `what_if` week check). -/
def extractValue (p : PatternSpec) (command : String) (m : MatchResult) : Option Value :=
  if p.intent == "set_progress" then
    (matchGet m 2).bind (fun s => (jsParseInt s).map Value.vint)
  else if p.intent == "extend_duration" || p.intent == "shorten_duration"
      || p.intent == "set_duration" then
    if p.intent == "extend_duration" && strContains p.source ("add") then
      (matchGet m 1).bind (fun s => (jsParseInt s).map Value.vint)
    else
      (jsOrStr (matchGet m 2) (matchGet m 1)).bind (fun s => (jsParseInt s).map Value.vint)
  else if p.intent == "add_risk" then
    some (Value.vstr (jsOrDefault (matchGet m 2) ("At risk")))
  else if p.intent == "set_actual_start" || p.intent == "set_actual_finish" then
    (matchGet m 2).map Value.vstr
  else if p.intent == "add_lag" then
    (matchGet m 2).bind (fun s => (jsParseInt s).map Value.vint)
  else if p.intent == "add_dependency" then
    (matchGet m 2).map (fun s => Value.vstr (jsToUpper s))
  else if p.intent == "add_constraint" then
    (matchGet m 2).map Value.vstr
  else if p.intent == "what_if" then
    if strContains command ("week") then
      (matchGet m 2).bind (fun s => (jsParseInt s).map (fun n => Value.vint (n * 5)))
    else
      (matchGet m 2).bind (fun s => (jsParseInt s).map Value.vint)
  else none

/-- `cmd.value2` is only set for `add_lag` (the predecessor, group 3). -/
def extractValue2 (p : PatternSpec) (m : MatchResult) : Option Value :=
  if p.intent == "add_lag" then (matchGet m 3).map (fun s => Value.vstr (jsToUpper s))
  else none

/-- `add_lag` overwrites the resolved `task_id` with group 1 uppercased. -/
def overrideTaskId (p : PatternSpec) (m : MatchResult) (resolved : Option String) :
    Option String :=
  if p.intent == "add_lag" then (matchGet m 1).map jsToUpper else resolved

structure ParsedCommand where
  intent : String
  task_id : Option String := none
  task_name : Option String := none
  value : Option Value := none
  value2 : Option Value := none
  confidence : ℚ
  matched_pattern : String
  is_query : Bool

/-- The `ParsedCommand` one matched pattern contributes to the loop. -/
def processPattern (data : EditorData) (fuse : String → Option (String × String × ℚ))
    (command : String) (p : PatternSpec) (m : MatchResult) : ParsedCommand :=
  let r := resolveEntity data fuse p m
  { intent := p.intent
    task_id := overrideTaskId p m r.1
    task_name := r.2.1
    value := extractValue p command m
    value2 := extractValue2 p m
    confidence := r.2.2
    matched_pattern := p.source
    is_query := p.intent.startsWith ("show_") || p.intent == "what_if" }

/-- The best-match fold of `parseCommand` (`confidence > bestConfidence`
is strict, so the first of equal-confidence matches wins). -/
def parseLoop (data : EditorData) (fuse : String → Option (String × String × ℚ))
    (command : String) : List (PatternSpec × Option MatchResult) →
    Option ParsedCommand → ℚ → Option ParsedCommand × ℚ
  | [], best, bestConfidence => (best, bestConfidence)
  | (_, none) :: rest, best, bestConfidence =>
    parseLoop data fuse command rest best bestConfidence
  | (p, some m) :: rest, best, bestConfidence =>
    let cmd := processPattern data fuse command p m
    if bestConfidence < cmd.confidence then
      parseLoop data fuse command rest (some cmd) cmd.confidence
    else
      parseLoop data fuse command rest best bestConfidence

def unknownCommand : ParsedCommand :=
  { intent := "unknown", confidence := 0, matched_pattern := "", is_query := false }

/-- `ScheduleEditor.parseCommand`: `matchList` is the oracle list of
`cleaned.match(pattern)` results in pattern order
(`cleaned = command.trim().toLowerCase()`). -/
def parseCommand (data : EditorData) (fuse : String → Option (String × String × ℚ))
    (command : String) (matchList : List (Option MatchResult)) : ParsedCommand :=
  match (parseLoop data fuse command (nlPatterns.zip matchList) none 0).1 with
  | some cmd => cmd
  | none => unknownCommand

theorem nl_get_mem {α : Type} : ∀ (l : List α) (i : Nat) (a : α),
    l.get? i = some a → a ∈ l := by
  intro l
  induction l with
  | nil => intro i a h; simp [List.get?] at h
  | cons x t ih =>
    intro i a h
    cases i with
    | zero =>
      simp [List.get?] at h
      exact h ▸ List.mem_cons_self x t
    | succ j =>
      exact List.mem_cons_of_mem x (ih j a h)

theorem nl_zip_mem_left {α β : Type} : ∀ (l1 : List α) (l2 : List β) (a : α) (b : β),
    (a, b) ∈ l1.zip l2 → a ∈ l1 := by
  intro l1
  induction l1 with
  | nil => intro l2 a b h; simp [List.zip] at h
  | cons x t ih =>
    intro l2 a b h
    cases l2 with
    | nil => simp [List.zip] at h
    | cons y u =>
      rcases List.mem_cons.mp h with heq | htail
      · injection heq with h1 h2
        exact h1 ▸ List.mem_cons_self x t
      · exact List.mem_cons_of_mem x (ih u a b htail)

theorem resolveEntity_exact (data : EditorData)
    (fuse : String → Option (String × String × ℚ)) (p : PatternSpec) (m : MatchResult)
    (s : String) (h1 : matchGet m (taskIdGroupIndex p) = some s) (h2 : s ≠ "")
    (h3 : findTaskInYAML data (jsToUpper s) = true) :
    resolveEntity data fuse p m =
      (some (jsToUpper s), none, jsMin 1 (p.base_confidence + 5/100)) := by
  unfold resolveEntity
  rw [h1]
  dsimp only
  rw [if_neg (by simpa using h2), if_pos h3]

theorem processPattern_confidence (data : EditorData)
    (fuse : String → Option (String × String × ℚ)) (command : String)
    (p : PatternSpec) (m : MatchResult) :
    (processPattern data fuse command p m).confidence = (resolveEntity data fuse p m).2.2 :=
  rfl

theorem processPattern_task_id (data : EditorData)
    (fuse : String → Option (String × String × ℚ)) (command : String)
    (p : PatternSpec) (m : MatchResult) :
    (processPattern data fuse command p m).task_id =
      overrideTaskId p m (resolveEntity data fuse p m).1 :=
  rfl

theorem nlPatterns_base_lb : ∀ p ∈ nlPatterns, 4/5 ≤ p.base_confidence := by
  intro p hp
  simp only [nlPatterns] at hp
  fin_cases hp <;> norm_num

theorem parseLoop_skip_none (data : EditorData)
    (fuse : String → Option (String × String × ℚ)) (command : String) :
    ∀ (pairs : List (PatternSpec × Option MatchResult)) (b : Option ParsedCommand) (c : ℚ),
      (∀ q ∈ pairs, q.2 = none) → parseLoop data fuse command pairs b c = (b, c) := by
  intro pairs
  induction pairs with
  | nil => intro b c _; rw [parseLoop]
  | cons q rest ih =>
    intro b c h
    obtain ⟨p, om⟩ := q
    have hq : om = none := h (p, om) (List.mem_cons_self _ _)
    subst hq
    rw [parseLoop]
    exact ih b c (fun q2 hq2 => h q2 (List.mem_cons_of_mem _ hq2))

theorem parseLoop_snd_mono (data : EditorData)
    (fuse : String → Option (String × String × ℚ)) (command : String) :
    ∀ (pairs : List (PatternSpec × Option MatchResult)) (b : Option ParsedCommand) (c : ℚ),
      c ≤ (parseLoop data fuse command pairs b c).2 := by
  intro pairs
  induction pairs with
  | nil => intro b c; rw [parseLoop]
  | cons q rest ih =>
    intro b c
    obtain ⟨p, om⟩ := q
    cases om with
    | none =>
      rw [parseLoop]
      exact ih b c
    | some m =>
      simp only [parseLoop]
      by_cases hlt : c < (processPattern data fuse command p m).confidence
      · rw [if_pos hlt]
        exact le_trans (le_of_lt hlt) (ih _ _)
      · rw [if_neg hlt]
        exact ih b c

theorem parseLoop_mem_le (data : EditorData)
    (fuse : String → Option (String × String × ℚ)) (command : String) :
    ∀ (pairs : List (PatternSpec × Option MatchResult)) (b : Option ParsedCommand) (c : ℚ)
      (p : PatternSpec) (m : MatchResult), (p, some m) ∈ pairs →
      (processPattern data fuse command p m).confidence ≤
        (parseLoop data fuse command pairs b c).2 := by
  intro pairs
  induction pairs with
  | nil => intro b c p m h; exact absurd h (List.not_mem_nil _)
  | cons q rest ih =>
    intro b c p m h
    obtain ⟨p2, om⟩ := q
    rcases List.mem_cons.mp h with heq | htail
    · injection heq with h1 h2
      subst h1
      subst h2
      simp only [parseLoop]
      by_cases hlt : c < (processPattern data fuse command p m).confidence
      · rw [if_pos hlt]
        exact parseLoop_snd_mono data fuse command rest _ _
      · rw [if_neg hlt]
        exact le_trans (le_of_not_lt hlt) (parseLoop_snd_mono data fuse command rest b c)
    · cases om with
      | none =>
        rw [parseLoop]
        exact ih b c p m htail
      | some m2 =>
        simp only [parseLoop]
        by_cases hlt : c < (processPattern data fuse command p2 m2).confidence
        · rw [if_pos hlt]
          exact ih _ _ p m htail
        · rw [if_neg hlt]
          exact ih b c p m htail

theorem parseLoop_fst_isSome (data : EditorData)
    (fuse : String → Option (String × String × ℚ)) (command : String) :
    ∀ (pairs : List (PatternSpec × Option MatchResult)) (cmd : ParsedCommand) (c : ℚ),
      (parseLoop data fuse command pairs (some cmd) c).1.isSome = true := by
  intro pairs
  induction pairs with
  | nil => intro cmd c; rw [parseLoop]; rfl
  | cons q rest ih =>
    intro cmd c
    obtain ⟨p, om⟩ := q
    cases om with
    | none =>
      rw [parseLoop]
      exact ih cmd c
    | some m =>
      simp only [parseLoop]
      by_cases hlt : c < (processPattern data fuse command p m).confidence
      · rw [if_pos hlt]
        exact ih _ _
      · rw [if_neg hlt]
        exact ih cmd c

theorem parseLoop_none_snd (data : EditorData)
    (fuse : String → Option (String × String × ℚ)) (command : String) :
    ∀ (pairs : List (PatternSpec × Option MatchResult)) (c : ℚ),
      (parseLoop data fuse command pairs none c).1 = none →
      (parseLoop data fuse command pairs none c).2 = c := by
  intro pairs
  induction pairs with
  | nil => intro c _; rw [parseLoop]
  | cons q rest ih =>
    intro c h
    obtain ⟨p, om⟩ := q
    cases om with
    | none =>
      rw [parseLoop] at h ⊢
      exact ih c h
    | some m =>
      simp only [parseLoop] at h ⊢
      by_cases hlt : c < (processPattern data fuse command p m).confidence
      · rw [if_pos hlt] at h
        have := parseLoop_fst_isSome data fuse command rest
          (processPattern data fuse command p m)
          (processPattern data fuse command p m).confidence
        rw [h] at this
        exact absurd this (by simp)
      · rw [if_neg hlt] at h ⊢
        exact ih c h

theorem parseLoop_fst_conf (data : EditorData)
    (fuse : String → Option (String × String × ℚ)) (command : String) :
    ∀ (pairs : List (PatternSpec × Option MatchResult)) (b : Option ParsedCommand) (c : ℚ),
      (∀ cmd0, b = some cmd0 → cmd0.confidence = c) →
      ∀ cmd1, (parseLoop data fuse command pairs b c).1 = some cmd1 →
        cmd1.confidence = (parseLoop data fuse command pairs b c).2 := by
  intro pairs
  induction pairs with
  | nil =>
    intro b c hinv cmd1 h
    rw [parseLoop] at h ⊢
    exact hinv cmd1 h
  | cons q rest ih =>
    intro b c hinv cmd1 h
    obtain ⟨p, om⟩ := q
    cases om with
    | none =>
      rw [parseLoop] at h ⊢
      exact ih b c hinv cmd1 h
    | some m =>
      simp only [parseLoop] at h ⊢
      by_cases hlt : c < (processPattern data fuse command p m).confidence
      · rw [if_pos hlt] at h ⊢
        refine ih _ _ ?_ cmd1 h
        intro cmd0 h0
        injection h0 with h0
        rw [← h0]
      · rw [if_neg hlt] at h ⊢
        exact ih b c hinv cmd1 h

theorem parseLoop_append_none (data : EditorData)
    (fuse : String → Option (String × String × ℚ)) (command : String) :
    ∀ (pre rest : List (PatternSpec × Option MatchResult)) (b : Option ParsedCommand)
      (c : ℚ), (∀ q ∈ pre, q.2 = none) →
      parseLoop data fuse command (pre ++ rest) b c =
        parseLoop data fuse command rest b c := by
  intro pre
  induction pre with
  | nil => intro rest b c _; rw [List.nil_append]
  | cons q pre2 ih =>
    intro rest b c h
    obtain ⟨p, om⟩ := q
    have hq : om = none := h (p, om) (List.mem_cons_self _ _)
    subst hq
    rw [List.cons_append, parseLoop]
    exact ih rest b c (fun q2 hq2 => h q2 (List.mem_cons_of_mem _ hq2))

/-- C6: when a matched pattern's captured entity token (at the pattern's
task-id group) is truthy and its uppercase form is the id of an existing
node, the exact lookup wins: the interpretation is completely independent
of the fuzzy matcher, its confidence is `min(1, base_confidence + 0.05)`,
and (except for `add_lag`, which overwrites `task_id` with the same group)
`task_id` is the uppercased token.  Every `base_confidence` is at least
0.80, so the parse `parseCommand` returns in that situation has confidence
at least 0.85 — but not 0.95 in general, since `min(1, base + 0.05) ≥ 0.95`
needs `base ≥ 0.90`. -/
theorem c6_exact_match_resolution :
    (∀ (data : EditorData) (fz1 fz2 : String → Option (String × String × ℚ))
        (command : String) (p : PatternSpec) (m : MatchResult) (s : String),
        matchGet m (taskIdGroupIndex p) = some s → s ≠ "" →
        findTaskInYAML data (jsToUpper s) = true →
        processPattern data fz1 command p m = processPattern data fz2 command p m ∧
          (processPattern data fz1 command p m).confidence =
            jsMin 1 (p.base_confidence + 5/100) ∧
          (p.intent ≠ "add_lag" →
            (processPattern data fz1 command p m).task_id = some (jsToUpper s))) ∧
    (∀ p ∈ nlPatterns, 4/5 ≤ p.base_confidence) ∧
    (∀ (data : EditorData) (fz : String → Option (String × String × ℚ))
        (command : String) (matchList : List (Option MatchResult))
        (i : Nat) (p : PatternSpec) (m : MatchResult) (s : String),
        (nlPatterns.zip matchList).get? i = some (p, some m) →
        matchGet m (taskIdGroupIndex p) = some s → s ≠ "" →
        findTaskInYAML data (jsToUpper s) = true →
        17/20 ≤ (parseCommand data fz command matchList).confidence) := by
  refine ⟨?_, nlPatterns_base_lb, ?_⟩
  · intro data fz1 fz2 command p m s hmg hne hfind
    have h1 := resolveEntity_exact data fz1 p m s hmg hne hfind
    have h2 := resolveEntity_exact data fz2 p m s hmg hne hfind
    refine ⟨?_, ?_, ?_⟩
    · simp only [processPattern, h1, h2]
    · rw [processPattern_confidence, h1]
    · intro hint
      rw [processPattern_task_id, h1, overrideTaskId, if_neg (by simpa using hint)]
  · intro data fz command matchList i p m s hget hmg hne hfind
    have hmem : (p, some m) ∈ nlPatterns.zip matchList := nl_get_mem _ i _ hget
    have hp : p ∈ nlPatterns := nl_zip_mem_left nlPatterns matchList p (some m) hmem
    have hbase := nlPatterns_base_lb p hp
    have hge : 17/20 ≤ (processPattern data fz command p m).confidence := by
      rw [processPattern_confidence, resolveEntity_exact data fz p m s hmg hne hfind]
      show 17/20 ≤ jsMin 1 (p.base_confidence + 5/100)
      rw [jsMin]
      by_cases h1 : (1:ℚ) ≤ p.base_confidence + 5/100
      · rw [if_pos h1]; norm_num
      · rw [if_neg h1]; linarith
    have hle := parseLoop_mem_le data fz command (nlPatterns.zip matchList) none 0 p m hmem
    have htot : 17/20 ≤ (parseLoop data fz command (nlPatterns.zip matchList) none 0).2 :=
      le_trans hge hle
    cases hbest : (parseLoop data fz command (nlPatterns.zip matchList) none 0).1 with
    | none =>
      exfalso
      have h0 := parseLoop_none_snd data fz command (nlPatterns.zip matchList) 0 hbest
      rw [h0] at htot
      norm_num at htot
    | some cmd =>
      have hc := parseLoop_fst_conf data fz command (nlPatterns.zip matchList) none 0
        (by intro cmd0 h0; exact absurd h0 (by simp)) cmd hbest
      unfold parseCommand
      rw [hbest]
      dsimp only
      rw [hc]
      exact htot

/-- The 14th pattern (`\w+ is \d+`, `set_progress`), the lowest-confidence
entry of `initPatterns`. -/
def nlP14 : PatternSpec :=
  { source := "/(\\w+)\\s+is\\s+(\\d+)(?!\\s*days?)/i",
    intent := "set_progress", base_confidence := 80/100 }

/-- A document holding the single task `T1` for the C6 concrete runs. -/
def c6Data : EditorData :=
  [{ fields := [("id", Value.vstr ("P1"))]
     workstreams := [
       { fields := [("id", Value.vstr ("WS1"))]
         tasks := [{ fields := [("id", Value.vstr ("T1")),
                                ("name", Value.vstr ("Task one"))] }] }] }]

/-- Fuse oracle returning no hits. -/
def c6Fuse : String → Option (String × String × ℚ) := fun _ => none

/-- Fuse oracle returning an (irrelevant) strong hit on another node. -/
def c6FuseAlt : String → Option (String × String × ℚ) :=
  fun _ => some ("WS1", "Workstream", 1/10)

/-- The match of `"t1 is 50"` against the 14th pattern. -/
def c6M14 : MatchResult := [some ("t1 is 50"), some ("t1"), some ("50")]

/-- The regex oracle for `"t1 is 50"`: only the 14th pattern matches. -/
def c6Matches : List (Option MatchResult) :=
  List.replicate 13 none ++ some c6M14 :: List.replicate 14 none

/-- C6 counterexample to the frozen claim: on `"t1 is 50"` the captured
token `t1` uppercases to the existing id `T1` and is resolved exactly, yet
the parse confidence is `min(1, 0.80 + 0.05) = 0.85 < 0.95`. -/
theorem c6_confidence_counterexample :
    findTaskInYAML c6Data (jsToUpper ("t1")) = true ∧
      (parseCommand c6Data c6Fuse ("t1 is 50") c6Matches).task_id = some ("T1") ∧
      (parseCommand c6Data c6Fuse ("t1 is 50") c6Matches).confidence = 17/20 ∧
      ¬ (19/20 ≤ (parseCommand c6Data c6Fuse ("t1 is 50") c6Matches).confidence) := by
  have hres : resolveEntity c6Data c6Fuse nlP14 c6M14 =
      (some (jsToUpper ("t1")), none, jsMin 1 (nlP14.base_confidence + 5/100)) :=
    resolveEntity_exact c6Data c6Fuse nlP14 c6M14 ("t1") rfl (by decide) rfl
  have hconf : (processPattern c6Data c6Fuse ("t1 is 50") nlP14 c6M14).confidence
      = 17/20 := by
    rw [processPattern_confidence, hres]
    show jsMin 1 (nlP14.base_confidence + 5/100) = 17/20
    have hb : nlP14.base_confidence = 80/100 := rfl
    rw [jsMin, hb, if_neg (by norm_num)]
    norm_num
  have h0 : (0:ℚ) < (processPattern c6Data c6Fuse ("t1 is 50") nlP14 c6M14).confidence := by
    rw [hconf]; norm_num
  have hzip : nlPatterns.zip c6Matches =
      (nlPatterns.take 13).zip (List.replicate 13 (none : Option MatchResult)) ++
        (nlP14, some c6M14) ::
          (nlPatterns.drop 14).zip (List.replicate 14 (none : Option MatchResult)) := by
    rfl
  have hskip_pre : ∀ q ∈ (nlPatterns.take 13).zip
      (List.replicate 13 (none : Option MatchResult)), q.2 = none := by decide
  have hskip_post : ∀ q ∈ (nlPatterns.drop 14).zip
      (List.replicate 14 (none : Option MatchResult)), q.2 = none := by decide
  have hloop : parseLoop c6Data c6Fuse ("t1 is 50") (nlPatterns.zip c6Matches) none 0 =
      (some (processPattern c6Data c6Fuse ("t1 is 50") nlP14 c6M14),
        (processPattern c6Data c6Fuse ("t1 is 50") nlP14 c6M14).confidence) := by
    rw [hzip, parseLoop_append_none c6Data c6Fuse ("t1 is 50") _ _ none 0 hskip_pre,
      parseLoop]
    rw [if_pos h0]
    exact parseLoop_skip_none c6Data c6Fuse ("t1 is 50") _ _ _ hskip_post
  have hcmd : parseCommand c6Data c6Fuse ("t1 is 50") c6Matches =
      processPattern c6Data c6Fuse ("t1 is 50") nlP14 c6M14 := by
    unfold parseCommand
    rw [hloop]
  refine ⟨rfl, ?_, ?_, ?_⟩
  · rw [hcmd, processPattern_task_id, hres]
    rfl
  · rw [hcmd, hconf]
  · rw [hcmd, hconf]
    norm_num

/-- C6 witness: the exact-resolution hypotheses hold concretely for
`"t1 is 50"` against `c6Data`, the resolution ignores the fuzzy oracle and
the parse confidence is at least 0.85. -/
theorem c6_exact_match_resolution_witness :
    (nlPatterns.zip c6Matches).get? 13 = some (nlP14, some c6M14) ∧
      matchGet c6M14 (taskIdGroupIndex nlP14) = some ("t1") ∧
      ("t1" : String) ≠ "" ∧
      findTaskInYAML c6Data (jsToUpper ("t1")) = true ∧
      processPattern c6Data c6Fuse ("t1 is 50") nlP14 c6M14 =
        processPattern c6Data c6FuseAlt ("t1 is 50") nlP14 c6M14 ∧
      17/20 ≤ (parseCommand c6Data c6Fuse ("t1 is 50") c6Matches).confidence :=
  ⟨rfl, rfl, by decide, rfl,
    (c6_exact_match_resolution.1 c6Data c6Fuse c6FuseAlt ("t1 is 50") nlP14 c6M14
      ("t1") rfl (by decide) rfl).1,
    c6_exact_match_resolution.2.2 c6Data c6Fuse ("t1 is 50") c6Matches 13 nlP14 c6M14
      ("t1") rfl rfl (by decide) rfl⟩

end NL
